import Mathlib

/-!
Verification of the Microchip CoreSPI controller driver
(`drivers/spi/spi-microchip-core.c`).

The driver's transfer engine is shallowly embedded: registers are `Nat`
values (the driver stores `u32` quantities; bit operations carry an
explicit 32-bit complement mask), the session fields `tx_len`, `rx_len`
and `pending` are `Int` (they are C `int`s), and the hardware byte FIFOs
are modelled as lists of bytes.  Every definition mirrors the
corresponding C function, keeping its name.
-/

set_option maxRecDepth 10000

namespace CoreSpi

/-! ### Constants from the driver header block -/

def MAX_LEN : Nat := 0xffff
def MAX_CS : Nat := 8
def FIFO_DEPTH : Nat := 32
def CLK_GEN_MODE1_MAX : Nat := 255
def CLK_GEN_MODE0_MAX : Nat := 15
def CLK_GEN_MIN : Nat := 0

def CONTROL_ENABLE : Nat := 1
def CONTROL_CLKMODE : Nat := 2 ^ 28
def CONTROL_FRAMECNT_MASK : Nat := 0xffff00
def CONTROL_FRAMECNT_SHIFT : Nat := 8

def INT_TXDONE : Nat := 1
def INT_RXRDY : Nat := 2
def INT_RX_CHANNEL_OVERFLOW : Nat := 4
def INT_TX_CHANNEL_UNDERRUN : Nat := 8

/-- Bitwise complement within a 32-bit register, i.e. the C expression
`~m` evaluated at `u32` width. -/
def compl32 (m : Nat) : Nat := 0xffffffff ^^^ m

/-- The kernel macro `DIV_ROUND_UP(n, d) = (n + d - 1) / d`. -/
def DIV_ROUND_UP (n d : Nat) : Nat := (n + d - 1) / d

/-- Scan of the bits below `i` for the most significant set bit. -/
def fls32 (n : Nat) : Nat → Nat
  | 0 => 0
  | i + 1 => if n.testBit i then i + 1 else fls32 n i

/-- The kernel helper `fls`: index (1-based) of the most significant set
bit of its `int` argument, with `fls 0 = 0`.  The argument is a 32-bit
`int` in C, so only bits 0 to 31 take part. -/
def fls (n : Nat) : Nat := fls32 n 32

/-! ### Data model: session state and the register file -/

/-- The session fields of `struct mchp_corespi`.  `txBuf` is the
pointer-view of the remaining transmit bytes (`none` when the transfer
has no transmit buffer); `rxBuf` accumulates the bytes stored through
the receive pointer (`none` when the transfer has no receive buffer). -/
structure SpiCtl where
  txBuf : Option (List Nat)
  rxBuf : Option (List Nat)
  txLen : Int
  rxLen : Int
  pending : Int
  clkGen : Nat
  clkMode : Nat
deriving DecidableEq

/-- The controller registers touched by the transfer path. -/
structure Regs where
  control : Nat
  clkGenReg : Nat
  framesup : Nat
  slaveSelect : Nat
deriving DecidableEq

/-! ### Clock divisor search (`mchp_corespi_calculate_clkgen`) -/

/-- `mchp_corespi_calculate_clkgen`: returns `some (clk_mode, clk_gen)`
on success and `none` for the `-EINVAL` paths.  `clkHz` is the rate
reported by `clk_get_rate`, `targetHz` the requested transfer rate.
(The C code divides by `2 * spi_hz`; with `targetHz = 0` the C division
is undefined behaviour, so theorems below assume `0 < targetHz`.) -/
def mchp_corespi_calculate_clkgen (clkHz targetHz : Nat) : Option (Nat × Nat) :=
  if clkHz = 0 then none
  else
    let spiHz := min targetHz clkHz
    let clkGen1 := DIV_ROUND_UP clkHz (2 * spiHz) - 1
    if CLK_GEN_MODE1_MAX < clkGen1 ∨ clkGen1 ≤ CLK_GEN_MIN then
      let clkGen0 := fls (DIV_ROUND_UP clkHz spiHz) - 1
      if CLK_GEN_MODE0_MAX < clkGen0 then none
      else some (0, clkGen0)
    else some (1, clkGen1)

/-- Written from the spec's words, for comparison with the code: the
effective rate the spec attributes to scheme A (clock mode 1),
`source_clock / (2 * d + 1)`. -/
def specEffectiveRateA (clkHz d : Nat) : Nat := clkHz / (2 * d + 1)

/-- Written from the spec's words, for comparison with the code: the
effective rate the spec attributes to scheme B (clock mode 0),
`source_clock / 2 ^ (d + 1)`. -/
def specEffectiveRateB (clkHz d : Nat) : Nat := clkHz / 2 ^ (d + 1)

/-! ### Register write helpers -/

/-- `mchp_corespi_set_xfer_size`: disable the controller, store the low
16 bits of `len` in the CONTROL frame-count field, the high bits in
FRAMESUP, then re-enable. -/
def mchp_corespi_set_xfer_size (r : Regs) (len : Nat) : Regs :=
  let c0 := r.control &&& compl32 CONTROL_ENABLE
  let lenpart := len &&& 0xffff
  let c1 := (c0 &&& compl32 CONTROL_FRAMECNT_MASK) |||
    (lenpart <<< CONTROL_FRAMECNT_SHIFT)
  { r with control := c1 ||| CONTROL_ENABLE, framesup := len &&& 0xffff0000 }

/-- The frame count as readable back from the register file (FRAMESUP
holds the high bits as written; the CONTROL field bits 23:8 the low
ones). -/
def frameCount (r : Regs) : Nat :=
  r.framesup + ((r.control >>> CONTROL_FRAMECNT_SHIFT) &&& 0xffff)

/-- `mchp_corespi_set_clk_gen`: disable the controller, set or clear the
CLKMODE bit from the session's `clk_mode`, program CLK_GEN from the
session's `clk_gen`, then re-enable. -/
def mchp_corespi_set_clk_gen (s : SpiCtl) (r : Regs) : Regs :=
  let c0 := r.control &&& compl32 CONTROL_ENABLE
  let c1 := if s.clkMode ≠ 0 then c0 ||| CONTROL_CLKMODE
    else c0 &&& compl32 CONTROL_CLKMODE
  { r with clkGenReg := s.clkGen, control := c1 ||| CONTROL_ENABLE }

/-- `mchp_corespi_set_cs` on the SLAVE_SELECT register value: clear bit
`cs`, then set it to `!disable`. -/
def mchp_corespi_set_cs (reg cs : Nat) (disable : Bool) : Nat :=
  (reg &&& compl32 (1 <<< cs)) ||| ((if disable then 0 else 1) <<< cs)

/-! ### The FIFO pump -/

/-- The loop of `mchp_corespi_read_fifo`: read RX_DATA while fewer than
`fifoMax` bytes were read and the RX FIFO is not empty, storing each
byte through the receive pointer when a receive buffer exists.  Returns
the receive buffer, the remaining RX FIFO and the number of RX_DATA
reads. -/
def readFifoLoop : Option (List Nat) → List Nat → Nat →
    Option (List Nat) × List Nat × Nat
  | rxBuf, fifo, 0 => (rxBuf, fifo, 0)
  | rxBuf, [], _ + 1 => (rxBuf, [], 0)
  | rxBuf, data :: fifo, fifoMax + 1 =>
    let rxBuf' := match rxBuf with
      | some stored => some (stored ++ [data])
      | none => none
    let rest := readFifoLoop rxBuf' fifo fifoMax
    (rest.1, rest.2.1, rest.2.2 + 1)

/-- Result of draining the RX FIFO: session state, remaining RX FIFO
contents, and the number of RX_DATA register reads performed. -/
structure ReadFifoResult where
  spi : SpiCtl
  rxFifo : List Nat
  reads : Nat
deriving DecidableEq

/-- `mchp_corespi_read_fifo`: drain up to `min(rx_len, FIFO_DEPTH)`
bytes from the RX FIFO, then decrement `rx_len` and `pending` by the
number of bytes read. -/
def mchp_corespi_read_fifo (s : SpiCtl) (rxFifo : List Nat) : ReadFifoResult :=
  let fifoMax := (min s.rxLen (FIFO_DEPTH : Int)).toNat
  let r := readFifoLoop s.rxBuf rxFifo fifoMax
  { spi := { s with rxBuf := r.1, rxLen := s.rxLen - r.2.2, pending := s.pending - r.2.2 },
    rxFifo := r.2.1,
    reads := r.2.2 }

/-- The loop of `mchp_corespi_write_fifo`: while fewer than `fifoMax`
bytes were pushed and the TX FIFO is not full, push the next transmit
byte (or the filler byte `0xaa` when the transfer has no transmit
buffer) to TX_DATA.  Returns the advanced transmit pointer, the TX FIFO
contents and the list of bytes pushed.  (When the transmit buffer is
exhausted the C code would read past its end; that situation is
unreachable because the driver keeps `tx_len` no larger than the bytes
remaining in the buffer, and the model returns byte 0 there.) -/
def writeFifoLoop : Option (List Nat) → List Nat → Nat →
    Option (List Nat) × List Nat × List Nat
  | txBuf, txFifo, 0 => (txBuf, txFifo, [])
  | txBuf, txFifo, fifoMax + 1 =>
    if FIFO_DEPTH ≤ txFifo.length then (txBuf, txFifo, [])
    else
      let byte := match txBuf with
        | some src => src.headD 0
        | none => 0xaa
      let txBuf' := match txBuf with
        | some src => some src.tail
        | none => none
      let rest := writeFifoLoop txBuf' (txFifo ++ [byte]) fifoMax
      (rest.1, rest.2.1, byte :: rest.2.2)

/-- Result of filling the TX FIFO: session state, register file (the
fill reprograms the frame count), TX FIFO contents, and the list of
bytes written to TX_DATA. -/
structure WriteFifoResult where
  spi : SpiCtl
  regs : Regs
  txFifo : List Nat
  pushed : List Nat
deriving DecidableEq

/-- `mchp_corespi_write_fifo`: compute the chunk size
`min(tx_len, FIFO_DEPTH)`, program it as the frame count, push up to
that many bytes to TX_DATA, then decrement `tx_len` and increment
`pending` by the number of bytes pushed. -/
def mchp_corespi_write_fifo (s : SpiCtl) (r : Regs) (txFifo : List Nat) :
    WriteFifoResult :=
  let fifoMax := (min s.txLen (FIFO_DEPTH : Int)).toNat
  let r' := mchp_corespi_set_xfer_size r fifoMax
  let w := writeFifoLoop s.txBuf txFifo fifoMax
  let s' :=
    { s with
      txBuf := w.1,
      txLen := s.txLen - (w.2.2.length : Int),
      pending := s.pending + (w.2.2.length : Int) }
  { spi := s', regs := r', txFifo := w.2.1, pushed := w.2.2 }

/-! ### The interrupt handler and transfer entry point -/

/-- Result of one invocation of the interrupt handler. -/
structure IrqResult where
  spi : SpiCtl
  regs : Regs
  rxFifo : List Nat
  txFifo : List Nat
  handled : Bool
  finalise : Bool
  rxReads : Nat
  txPushed : List Nat
deriving DecidableEq

/-- `mchp_corespi_interrupt`: reads the low four bits of MIS.  On the
transfer-done cause it drains the RX FIFO when `rx_len` is nonzero,
fills the TX FIFO when `tx_len` is nonzero, and marks the transfer
finalised when `rx_len` has reached zero; the receive-overflow and
transmit-underrun causes mark the transfer finalised unconditionally.
`finalise = true` stands for the `spi_finalize_current_transfer` call
(which carries no error status), `handled = false` for `IRQ_NONE`. -/
def mchp_corespi_interrupt (s : SpiCtl) (r : Regs) (rxFifo txFifo : List Nat)
    (intfieldRaw : Nat) : IrqResult :=
  let intfield := intfieldRaw &&& 0xf
  if intfield = 0 then
    { spi := s, regs := r, rxFifo := rxFifo, txFifo := txFifo,
      handled := false, finalise := false, rxReads := 0, txPushed := [] }
  else
    let afterRead :=
      if intfield &&& INT_TXDONE ≠ 0 ∧ s.rxLen ≠ 0 then
        mchp_corespi_read_fifo s rxFifo
      else ⟨s, rxFifo, 0⟩
    let s1 := afterRead.spi
    let afterWrite :=
      if intfield &&& INT_TXDONE ≠ 0 ∧ s1.txLen ≠ 0 then
        mchp_corespi_write_fifo s1 r txFifo
      else ⟨s1, r, txFifo, []⟩
    let s2 := afterWrite.spi
    let finDone := intfield &&& INT_TXDONE ≠ 0 ∧ s2.rxLen = 0
    let finOver := intfield &&& INT_RX_CHANNEL_OVERFLOW ≠ 0
    let finUnder := intfield &&& INT_TX_CHANNEL_UNDERRUN ≠ 0
    { spi := s2
      regs := afterWrite.regs
      rxFifo := afterRead.rxFifo
      txFifo := afterWrite.txFifo
      handled := true
      finalise := decide finDone || decide finOver || decide finUnder
      rxReads := afterRead.reads
      txPushed := afterWrite.pushed }

/-- Result of `mchp_corespi_transfer_one`: the returned status (1 for
"transfer pending", −22 for `-EINVAL`), the session fields, the register
file, the TX FIFO contents, and the bytes pushed to TX_DATA. -/
structure XferResult where
  status : Int
  spi : SpiCtl
  regs : Regs
  txFifo : List Nat
  pushed : List Nat
deriving DecidableEq

/-- `mchp_corespi_transfer_one`: computes the divisor (returning the
error with no state change when that fails), programs the clock
generator, loads the session fields from the transfer, programs the
transfer size and primes the first chunk when `tx_len` is nonzero. -/
def mchp_corespi_transfer_one (clkHz speedHz len : Nat)
    (txB rxB : Option (List Nat)) (s : SpiCtl) (r : Regs)
    (txFifo : List Nat) : XferResult :=
  match mchp_corespi_calculate_clkgen clkHz speedHz with
  | none => { status := -22, spi := s, regs := r, txFifo := txFifo, pushed := [] }
  | some (mode, gen) =>
    let s1 := { s with clkMode := mode, clkGen := gen }
    let r1 := mchp_corespi_set_clk_gen s1 r
    let s2 :=
      { s1 with
        txBuf := txB,
        rxBuf := rxB,
        txLen := (len : Int),
        rxLen := (len : Int),
        pending := 0 }
    let r2 := mchp_corespi_set_xfer_size r1
      (if (FIFO_DEPTH : Int) < s2.txLen then FIFO_DEPTH else len)
    if s2.txLen ≠ 0 then
      let w := mchp_corespi_write_fifo s2 r2 txFifo
      { status := 1, spi := w.spi, regs := w.regs, txFifo := w.txFifo,
        pushed := w.pushed }
    else
      { status := 1, spi := s2, regs := r2, txFifo := txFifo, pushed := [] }

/-! ### Normal-operation session model -/

/-- Controller-plus-hardware state between interrupt cycles. -/
structure RunState where
  spi : SpiCtl
  regs : Regs
  rxFifo : List Nat
  txFifo : List Nat
deriving DecidableEq

/-- One normal interrupt cycle: the controller shifts out every byte in
the TX FIFO and (full-duplex, with the peer looping data back) one byte
arrives in the RX FIFO per byte sent; then the transfer-done interrupt
fires. -/
def normalStep (st : RunState) : IrqResult :=
  mchp_corespi_interrupt st.spi st.regs (st.rxFifo ++ st.txFifo) [] INT_TXDONE

/-- Drive a session through normal interrupt cycles until the handler
finalises the transfer, giving up when the fuel runs out. -/
def runSession : Nat → RunState → Option RunState
  | 0, _ => none
  | fuel + 1, st =>
    let res := normalStep st
    let st' : RunState := ⟨res.spi, res.regs, res.rxFifo, res.txFifo⟩
    if res.finalise then some st' else runSession fuel st'

/-- Invariant linking the session fields and the hardware FIFOs between
normal interrupt cycles. -/
def NormalInv (st : RunState) : Prop :=
  st.spi.rxLen = st.spi.txLen + st.spi.pending ∧
  0 ≤ st.spi.txLen ∧
  st.spi.pending = min st.spi.rxLen (FIFO_DEPTH : Int) ∧
  st.rxFifo = [] ∧
  (st.txFifo.length : Int) = st.spi.pending

example : mchp_corespi_calculate_clkgen 20000000 1000000 = some (1, 9) := by decide
example : specEffectiveRateA 20000000 9 = 1052631 := by decide
example : mchp_corespi_calculate_clkgen 67108864 1 = none := by decide
example : mchp_corespi_calculate_clkgen 20000000 10000000 = some (0, 1) := by decide
example : mchp_corespi_calculate_clkgen 20000000 20000000 = some (0, 0) := by decide

/-! ### Arithmetic facts about `DIV_ROUND_UP` and `fls` -/

lemma le_mul_div_round_up (n d : Nat) (hd : 0 < d) : n ≤ d * DIV_ROUND_UP n d := by
  have h := Nat.div_add_mod (n + d - 1) d
  have hm := Nat.mod_lt (n + d - 1) hd
  unfold DIV_ROUND_UP
  omega

lemma mul_pred_div_round_up_lt (n d : Nat) (hd : 0 < d) (hn : 0 < n) :
    d * (DIV_ROUND_UP n d - 1) < n := by
  have h1 := Nat.div_add_mod (n + d - 1) d
  have h2 := Nat.mod_lt (n + d - 1) hd
  have hq1 : 1 ≤ (n + d - 1) / d := by
    rw [Nat.le_div_iff_mul_le hd]
    omega
  have hdist : d * ((n + d - 1) / d - 1) + d = d * ((n + d - 1) / d) := by
    have hsub : (n + d - 1) / d - 1 + 1 = (n + d - 1) / d := by omega
    calc d * ((n + d - 1) / d - 1) + d = d * (((n + d - 1) / d - 1) + 1) := by ring
      _ = d * ((n + d - 1) / d) := by rw [hsub]
  unfold DIV_ROUND_UP
  omega

lemma div_round_up_lt_of_le (n d : Nat) (hd : 0 < d) :
    DIV_ROUND_UP n d < n + 1 := by
  unfold DIV_ROUND_UP
  rw [Nat.div_lt_iff_lt_mul hd]
  have hexp : (n + 1) * d = n * d + d := by ring
  have hle : n ≤ n * d := Nat.le_mul_of_pos_right _ hd
  omega

lemma fls32_eq_of_testBit (n k : Nat) (hk : n.testBit k = true) :
    ∀ i, k < i → (∀ j, k < j → j < i → n.testBit j = false) → fls32 n i = k + 1 := by
  intro i
  induction i with
  | zero => omega
  | succ i ih =>
    intro hki hj
    rcases Nat.lt_or_ge k i with hlt | hge
    · have hbit : n.testBit i = false := hj i hlt (Nat.lt_succ_self i)
      simp only [fls32, hbit, Bool.false_eq_true, if_false]
      exact ih hlt fun j h1 h2 => hj j h1 (Nat.lt_succ_of_lt h2)
    · have hik : k = i := by omega
      simp only [fls32, hik ▸ hk, if_true]
      omega

lemma fls_eq_log2 (n : Nat) (h0 : 0 < n) (h32 : n < 2 ^ 32) :
    fls n = Nat.log2 n + 1 := by
  have hn0 : n ≠ 0 := by omega
  have hlow : 2 ^ n.log2 ≤ n := Nat.log2_self_le hn0
  have hhigh : n < 2 ^ (n.log2 + 1) := Nat.lt_log2_self
  have hbit : n.testBit n.log2 = true := by
    rw [Nat.testBit_to_div_mod]
    have h1 : 1 ≤ n / 2 ^ n.log2 := (Nat.one_le_div_iff (Nat.pos_pow_of_pos _ (by omega))).2 hlow
    have h2 : n / 2 ^ n.log2 < 2 := by
      rw [Nat.div_lt_iff_lt_mul (Nat.pos_pow_of_pos _ (by omega))]
      calc n < 2 ^ (n.log2 + 1) := hhigh
        _ = 2 * 2 ^ n.log2 := by ring
    have : n / 2 ^ n.log2 = 1 := by omega
    simp [this]
  have hk32 : n.log2 < 32 := (Nat.log2_lt hn0).2 h32
  have habove : ∀ j, n.log2 < j → j < 32 → n.testBit j = false := by
    intro j hjk _
    exact Nat.testBit_lt_two_pow
      (lt_of_lt_of_le hhigh (Nat.pow_le_pow_right (by omega) hjk))
  exact fls32_eq_of_testBit n n.log2 hbit 32 hk32 habove

/-- Unfolding of the divisor search once the source clock is known to be
nonzero and the target capped at the source rate. -/
lemma calculate_clkgen_eq (clkHz targetHz : Nat) (h0 : clkHz ≠ 0)
    (hmin : min targetHz clkHz = targetHz) :
    mchp_corespi_calculate_clkgen clkHz targetHz =
      if 255 < DIV_ROUND_UP clkHz (2 * targetHz) - 1 ∨
          DIV_ROUND_UP clkHz (2 * targetHz) - 1 ≤ 0 then
        if 15 < fls (DIV_ROUND_UP clkHz targetHz) - 1 then none
        else some (0, fls (DIV_ROUND_UP clkHz targetHz) - 1)
      else some (1, DIV_ROUND_UP clkHz (2 * targetHz) - 1) := by
  unfold mchp_corespi_calculate_clkgen CLK_GEN_MODE1_MAX CLK_GEN_MODE0_MAX CLK_GEN_MIN
  rw [if_neg h0, hmin]

/-! ### Claim C1: the clock-divisor search -/

/-- C1, counterexample.  At source clock 20 MHz and target 1 MHz
(target ≤ clock) the search selects scheme A with divisor 9, whose
effective rate under the spec's scheme-A formula `clk / (2 d + 1)` is
20000000/19 = 1052631 Hz > 1000000 Hz, contradicting the claimed bound;
and at source clock 2^26 Hz with target 1 Hz (target ≤ clock) the search
fails, contradicting the claim that it succeeds for every
`target_hz` ≤ source clock. -/
theorem claim_C1_cex :
    (mchp_corespi_calculate_clkgen 20000000 1000000 = some (1, 9) ∧
      ¬ specEffectiveRateA 20000000 9 ≤ 1000000) ∧
    ((1 : Nat) ≤ 67108864 ∧ mchp_corespi_calculate_clkgen 67108864 1 = none) := by
  decide

/-- C1, amended.  For `0 < target_hz ≤ clk_hz` (with `clk_hz` a 32-bit
rate): when the search selects scheme A (clock mode 1) with divisor `d`,
then `1 ≤ d ≤ 255`, the divisor satisfies `clk ≤ 2·(d+1)·target` (the
effective-rate bound under the division ratio `2·(d+1)` implied by the
divisor computation, not the `2·d+1` of the claim), and `d` is the
smallest divisor doing so; when it selects scheme B (clock mode 0) with
divisor `d`, then `d ≤ 15`, `clk < 2^(d+1)·target`, and scheme B was
chosen only because the scheme-A candidate fell outside `[1, 255]`; and
the search fails exactly when `clk > 65535·target`, so it does not
succeed for every `target ≤ clk`. -/
theorem claim_C1 (clkHz targetHz : Nat) (ht : 0 < targetHz)
    (htc : targetHz ≤ clkHz) (hclk : clkHz < 2 ^ 32) :
    (∀ d, mchp_corespi_calculate_clkgen clkHz targetHz = some (1, d) →
      1 ≤ d ∧ d ≤ 255 ∧ clkHz ≤ 2 * (d + 1) * targetHz ∧ 2 * d * targetHz < clkHz) ∧
    (∀ d, mchp_corespi_calculate_clkgen clkHz targetHz = some (0, d) →
      d ≤ 15 ∧ clkHz < 2 ^ (d + 1) * targetHz ∧
      (DIV_ROUND_UP clkHz (2 * targetHz) - 1 = 0 ∨
        255 < DIV_ROUND_UP clkHz (2 * targetHz) - 1)) ∧
    (mchp_corespi_calculate_clkgen clkHz targetHz = none ↔
      65535 * targetHz < clkHz) := by
  have hclk0 : clkHz ≠ 0 := by omega
  have hmin : min targetHz clkHz = targetHz := min_eq_left htc
  have hg_pos : 1 ≤ DIV_ROUND_UP clkHz targetHz := by
    unfold DIV_ROUND_UP
    rw [Nat.le_div_iff_mul_le ht]
    omega
  have hg_lt : DIV_ROUND_UP clkHz targetHz < 2 ^ 32 := by
    have := div_round_up_lt_of_le clkHz targetHz ht
    omega
  have hfls := fls_eq_log2 (DIV_ROUND_UP clkHz targetHz) hg_pos hg_lt
  rw [calculate_clkgen_eq clkHz targetHz hclk0 hmin]
  by_cases h1 : 255 < DIV_ROUND_UP clkHz (2 * targetHz) - 1 ∨
      DIV_ROUND_UP clkHz (2 * targetHz) - 1 ≤ 0
  · rw [if_pos h1]
    by_cases h0 : 15 < fls (DIV_ROUND_UP clkHz targetHz) - 1
    · rw [if_pos h0]
      have hband : 65535 * targetHz < clkHz := by
        have hlog : 16 ≤ (DIV_ROUND_UP clkHz targetHz).log2 := by omega
        have h2 : 2 ^ 16 ≤ DIV_ROUND_UP clkHz targetHz :=
          (Nat.le_log2 (by omega)).1 hlog
        have h3 : 65536 * targetHz ≤ clkHz + targetHz - 1 := by
          have h4 : 65536 ≤ (clkHz + targetHz - 1) / targetHz := by
            have : (2 : Nat) ^ 16 = 65536 := by norm_num
            unfold DIV_ROUND_UP at h2
            omega
          have := (Nat.le_div_iff_mul_le ht).1 h4
          omega
        omega
      exact ⟨by simp, by simp, fun _ => hband, fun _ => rfl⟩
    · rw [if_neg h0]
      have hcontra : clkHz ≤ 65535 * targetHz := by
        have hglt : DIV_ROUND_UP clkHz targetHz < 2 ^ 16 :=
          (Nat.log2_lt (by omega)).1 (by omega)
        have hgle : DIV_ROUND_UP clkHz targetHz ≤ 65535 := by
          have h16 : (2 : Nat) ^ 16 = 65536 := by norm_num
          omega
        have hle : clkHz ≤ targetHz * DIV_ROUND_UP clkHz targetHz :=
          le_mul_div_round_up clkHz targetHz ht
        have hmul : targetHz * DIV_ROUND_UP clkHz targetHz ≤ targetHz * 65535 :=
          Nat.mul_le_mul (Nat.le_refl targetHz) hgle
        omega
      refine ⟨by simp, ?_, fun h => absurd h (by simp), fun hb => absurd hb (by omega)⟩
      intro d hd
      simp only [Option.some.injEq, Prod.mk.injEq] at hd
      have hd' : fls (DIV_ROUND_UP clkHz targetHz) - 1 = d := hd.2
      have hdlog : d = (DIV_ROUND_UP clkHz targetHz).log2 := by omega
      refine ⟨by omega, ?_, by omega⟩
      have hup : DIV_ROUND_UP clkHz targetHz < 2 ^ (d + 1) := by
        rw [hdlog]
        exact Nat.lt_log2_self
      have hle : clkHz ≤ targetHz * DIV_ROUND_UP clkHz targetHz :=
        le_mul_div_round_up clkHz targetHz ht
      calc clkHz ≤ targetHz * DIV_ROUND_UP clkHz targetHz := hle
        _ < targetHz * 2 ^ (d + 1) := mul_lt_mul_of_pos_left hup ht
        _ = 2 ^ (d + 1) * targetHz := by ring
  · rw [if_neg h1]
    have hcontra : clkHz ≤ 65535 * targetHz := by
      have hdle : DIV_ROUND_UP clkHz (2 * targetHz) ≤ 256 := by
        rcases Nat.lt_or_ge (DIV_ROUND_UP clkHz (2 * targetHz)) 257 with h | h
        · omega
        · exact absurd (Or.inl (by omega)) h1
      have hge := le_mul_div_round_up clkHz (2 * targetHz) (by omega)
      have hmul : 2 * targetHz * DIV_ROUND_UP clkHz (2 * targetHz) ≤
          2 * targetHz * 256 :=
        Nat.mul_le_mul (Nat.le_refl (2 * targetHz)) hdle
      omega
    refine ⟨?_, by simp, fun h => absurd h (by simp), fun hb => absurd hb (by omega)⟩
    intro d hd
    simp only [Option.some.injEq, Prod.mk.injEq] at hd
    have hd' : DIV_ROUND_UP clkHz (2 * targetHz) - 1 = d := hd.2
    push_neg at h1
    refine ⟨by omega, by omega, ?_, ?_⟩
    · have hge := le_mul_div_round_up clkHz (2 * targetHz) (by omega)
      have hdru : DIV_ROUND_UP clkHz (2 * targetHz) = d + 1 := by omega
      rw [hdru] at hge
      calc clkHz ≤ 2 * targetHz * (d + 1) := hge
        _ = 2 * (d + 1) * targetHz := by ring
    · have hlt := mul_pred_div_round_up_lt clkHz (2 * targetHz) (by omega) (by omega)
      calc 2 * d * targetHz = 2 * targetHz * (DIV_ROUND_UP clkHz (2 * targetHz) - 1) := by
            rw [hd']; ring
        _ < clkHz := hlt

/-- C1 witness, instantiating the amended theorem at source clock
20 MHz and target 1 MHz, where the search picks scheme A with d = 9. -/
theorem claim_C1_witness :
    1 ≤ 9 ∧ 9 ≤ 255 ∧ 20000000 ≤ 2 * (9 + 1) * 1000000 ∧
      2 * 9 * 1000000 < 20000000 :=
  (claim_C1 20000000 1000000 (by decide) (by decide) (by decide)).1 9 (by decide)

/-! ### Behaviour of the FIFO loops -/

lemma readFifoLoop_count (rb : Option (List Nat)) (f : List Nat) (m : Nat) :
    (readFifoLoop rb f m).2.2 = min m f.length := by
  induction f generalizing rb m with
  | nil => cases m <;> simp [readFifoLoop]
  | cons d f ih =>
    cases m with
    | zero => simp [readFifoLoop]
    | succ m => simp [readFifoLoop, ih]; omega

lemma readFifoLoop_fifo (rb : Option (List Nat)) (f : List Nat) (m : Nat) :
    (readFifoLoop rb f m).2.1 = f.drop m := by
  induction f generalizing rb m with
  | nil => cases m <;> simp [readFifoLoop]
  | cons d f ih =>
    cases m with
    | zero => simp [readFifoLoop]
    | succ m => simp [readFifoLoop, ih]

lemma readFifoLoop_none (f : List Nat) (m : Nat) :
    (readFifoLoop none f m).1 = none := by
  induction f generalizing m with
  | nil => cases m <;> simp [readFifoLoop]
  | cons d f ih =>
    cases m with
    | zero => simp [readFifoLoop]
    | succ m => simp [readFifoLoop, ih]

lemma readFifoLoop_some (stored : List Nat) (f : List Nat) (m : Nat) :
    (readFifoLoop (some stored) f m).1 = some (stored ++ f.take m) := by
  induction f generalizing stored m with
  | nil => cases m <;> simp [readFifoLoop]
  | cons d f ih =>
    cases m with
    | zero => simp [readFifoLoop]
    | succ m => simp [readFifoLoop, ih]

lemma writeFifoLoop_zero (tb : Option (List Nat)) (f : List Nat) :
    writeFifoLoop tb f 0 = (tb, f, []) := rfl

lemma writeFifoLoop_succ (tb : Option (List Nat)) (f : List Nat) (m : Nat) :
    writeFifoLoop tb f (m + 1) =
      if FIFO_DEPTH ≤ f.length then (tb, f, [])
      else
        let byte := match tb with
          | some src => src.headD 0
          | none => 0xaa
        let tb' := match tb with
          | some src => some src.tail
          | none => none
        let rest := writeFifoLoop tb' (f ++ [byte]) m
        (rest.1, rest.2.1, byte :: rest.2.2) := rfl

lemma writeFifoLoop_pushed_length (tb : Option (List Nat)) (f : List Nat) (m : Nat) :
    (writeFifoLoop tb f m).2.2.length = min m (FIFO_DEPTH - f.length) := by
  induction m generalizing tb f with
  | zero => simp [writeFifoLoop_zero]
  | succ m ih =>
    rw [writeFifoLoop_succ]
    by_cases h : FIFO_DEPTH ≤ f.length
    · rw [if_pos h]
      unfold FIFO_DEPTH at h ⊢
      simp only [List.length_nil]
      omega
    · rw [if_neg h]
      simp only [List.length_cons, ih, List.length_append, List.length_cons,
        List.length_nil]
      unfold FIFO_DEPTH at h ⊢
      omega

lemma writeFifoLoop_fifo (tb : Option (List Nat)) (f : List Nat) (m : Nat) :
    (writeFifoLoop tb f m).2.1 = f ++ (writeFifoLoop tb f m).2.2 := by
  induction m generalizing tb f with
  | zero => simp [writeFifoLoop_zero]
  | succ m ih =>
    rw [writeFifoLoop_succ]
    by_cases h : FIFO_DEPTH ≤ f.length
    · simp only [if_pos h]
      simp
    · simp only [if_neg h]
      simp only [ih, List.append_assoc, List.cons_append, List.nil_append,
        List.singleton_append]

lemma writeFifoLoop_none (f : List Nat) (m : Nat) :
    (writeFifoLoop none f m).1 = none := by
  induction m generalizing f with
  | zero => simp [writeFifoLoop_zero]
  | succ m ih =>
    rw [writeFifoLoop_succ]
    by_cases h : FIFO_DEPTH ≤ f.length
    · rw [if_pos h]
    · rw [if_neg h]
      exact ih _

lemma writeFifoLoop_none_pushed (f : List Nat) (m : Nat) :
    ∀ b ∈ (writeFifoLoop none f m).2.2, b = 0xaa := by
  induction m generalizing f with
  | zero => simp [writeFifoLoop_zero]
  | succ m ih =>
    rw [writeFifoLoop_succ]
    by_cases h : FIFO_DEPTH ≤ f.length
    · rw [if_pos h]
      simp
    · rw [if_neg h]
      intro b hb
      rcases List.mem_cons.1 hb with hb | hb
      · exact hb
      · exact ih _ b hb

lemma int_min_toNat (a : Int) (ha : 0 ≤ a) :
    (min a (FIFO_DEPTH : Int)).toNat = min a.toNat FIFO_DEPTH := by
  unfold FIFO_DEPTH
  omega

lemma compl32_testBit (m j : Nat) :
    (compl32 m).testBit j = (decide (j < 32) ^^ m.testBit j) := by
  unfold compl32
  have h : (0xffffffff : Nat) = 2 ^ 32 - 1 := by norm_num
  rw [h, Nat.testBit_xor, Nat.testBit_two_pow_sub_one]

lemma frameCount_set_xfer_size (r : Regs) (len : Nat) (h : len ≤ 0xffff) :
    frameCount (mchp_corespi_set_xfer_size r len) = len := by
  have hlen : len &&& 0xffff = len := by
    have h16 : (0xffff : Nat) = 2 ^ 16 - 1 := by norm_num
    rw [h16, Nat.and_pow_two_sub_one_of_lt_two_pow (by omega)]
  have hsup : len &&& 0xffff0000 = 0 := by
    apply Nat.eq_of_testBit_eq
    intro i
    rcases Nat.lt_or_ge i 16 with hi | hi
    · simp only [Nat.testBit_and, Nat.zero_testBit, Bool.and_eq_false_imp]
      intro _
      interval_cases i <;> simp [Nat.testBit_to_div_mod]
    · have hlt : len < 2 ^ i :=
        lt_of_lt_of_le (by omega : len < 2 ^ 16) (Nat.pow_le_pow_right (by norm_num) hi)
      simp [Nat.testBit_and, Nat.testBit_lt_two_pow hlt]
  unfold mchp_corespi_set_xfer_size frameCount CONTROL_ENABLE CONTROL_FRAMECNT_MASK
    CONTROL_FRAMECNT_SHIFT compl32
  simp only [hlen, hsup, Nat.zero_add]
  apply Nat.eq_of_testBit_eq
  intro i
  rcases Nat.lt_or_ge i 16 with hi | hi
  · interval_cases i <;>
      (simp only [Nat.testBit_or, Nat.testBit_and, Nat.testBit_xor, Nat.testBit_shiftRight,
        Nat.testBit_shiftLeft]
       simp [Nat.testBit_to_div_mod])
  · have hlt : len < 2 ^ i :=
      lt_of_lt_of_le (by omega : len < 2 ^ 16) (Nat.pow_le_pow_right (by norm_num) hi)
    have h1 : len.testBit i = false := Nat.testBit_lt_two_pow hlt
    have h2 : Nat.testBit 0xffff i = false :=
      Nat.testBit_lt_two_pow (lt_of_lt_of_le (by norm_num) (Nat.pow_le_pow_right (by norm_num) hi))
    simp [Nat.testBit_and, h1, h2]

lemma set_xfer_size_framesup_zero (r : Regs) (len : Nat) (h : len ≤ 0xffff) :
    (mchp_corespi_set_xfer_size r len).framesup = 0 := by
  show len &&& 0xffff0000 = 0
  apply Nat.eq_of_testBit_eq
  intro i
  rcases Nat.lt_or_ge i 16 with hi | hi
  · simp only [Nat.testBit_and, Nat.zero_testBit, Bool.and_eq_false_imp]
    intro _
    interval_cases i <;> simp [Nat.testBit_to_div_mod]
  · have hlt : len < 2 ^ i :=
      lt_of_lt_of_le (by omega : len < 2 ^ 16) (Nat.pow_le_pow_right (by norm_num) hi)
    simp [Nat.testBit_and, Nat.testBit_lt_two_pow hlt]

/-! ### Characterizations of the FIFO operations -/

lemma read_fifo_spec (s : SpiCtl) (fifo : List Nat) (hrx : 0 ≤ s.rxLen) :
    (mchp_corespi_read_fifo s fifo).reads =
      min (min s.rxLen.toNat FIFO_DEPTH) fifo.length ∧
    (mchp_corespi_read_fifo s fifo).spi.rxLen =
      s.rxLen - (mchp_corespi_read_fifo s fifo).reads ∧
    (mchp_corespi_read_fifo s fifo).spi.pending =
      s.pending - (mchp_corespi_read_fifo s fifo).reads ∧
    (mchp_corespi_read_fifo s fifo).spi.txLen = s.txLen ∧
    (mchp_corespi_read_fifo s fifo).spi.txBuf = s.txBuf ∧
    (mchp_corespi_read_fifo s fifo).rxFifo =
      fifo.drop (mchp_corespi_read_fifo s fifo).reads ∧
    (mchp_corespi_read_fifo s fifo).spi.rxBuf =
      (match s.rxBuf with
        | none => none
        | some stored => some (stored ++ fifo.take (mchp_corespi_read_fifo s fifo).reads)) := by
  have hmin := int_min_toNat s.rxLen hrx
  have hcount : (mchp_corespi_read_fifo s fifo).reads =
      min (min s.rxLen.toNat FIFO_DEPTH) fifo.length := by
    unfold mchp_corespi_read_fifo
    simp only [readFifoLoop_count, hmin]
  refine ⟨hcount, rfl, rfl, rfl, rfl, ?_, ?_⟩
  · rw [hcount]
    have hdrop : fifo.drop (min s.rxLen.toNat FIFO_DEPTH) =
        fifo.drop (min (min s.rxLen.toNat FIFO_DEPTH) fifo.length) := by
      rcases Nat.le_total (min s.rxLen.toNat FIFO_DEPTH) fifo.length with hle | hle
      · rw [min_eq_left hle]
      · rw [min_eq_right hle, List.drop_length, List.drop_eq_nil_of_le hle]
    rw [← hdrop]
    unfold mchp_corespi_read_fifo
    simp only [readFifoLoop_fifo, hmin]
  · rw [hcount]
    have htake : fifo.take (min s.rxLen.toNat FIFO_DEPTH) =
        fifo.take (min (min s.rxLen.toNat FIFO_DEPTH) fifo.length) := by
      rcases Nat.le_total (min s.rxLen.toNat FIFO_DEPTH) fifo.length with hle | hle
      · rw [min_eq_left hle]
      · rw [min_eq_right hle, List.take_length, List.take_of_length_le hle]
    rw [← htake]
    cases hb : s.rxBuf with
    | none =>
      unfold mchp_corespi_read_fifo
      simp only [hb, readFifoLoop_none, hmin]
    | some stored =>
      unfold mchp_corespi_read_fifo
      simp only [hb, readFifoLoop_some, hmin]

lemma write_fifo_spec (s : SpiCtl) (r : Regs) (fifo : List Nat) (htx : 0 ≤ s.txLen) :
    (mchp_corespi_write_fifo s r fifo).pushed.length =
      min (min s.txLen.toNat FIFO_DEPTH) (FIFO_DEPTH - fifo.length) ∧
    (mchp_corespi_write_fifo s r fifo).spi.txLen =
      s.txLen - (mchp_corespi_write_fifo s r fifo).pushed.length ∧
    (mchp_corespi_write_fifo s r fifo).spi.pending =
      s.pending + (mchp_corespi_write_fifo s r fifo).pushed.length ∧
    (mchp_corespi_write_fifo s r fifo).spi.rxLen = s.rxLen ∧
    (mchp_corespi_write_fifo s r fifo).spi.rxBuf = s.rxBuf ∧
    (mchp_corespi_write_fifo s r fifo).txFifo =
      fifo ++ (mchp_corespi_write_fifo s r fifo).pushed ∧
    (mchp_corespi_write_fifo s r fifo).regs =
      mchp_corespi_set_xfer_size r (min s.txLen.toNat FIFO_DEPTH) := by
  have hmin := int_min_toNat s.txLen htx
  refine ⟨?_, rfl, rfl, rfl, rfl, ?_, ?_⟩
  · unfold mchp_corespi_write_fifo
    simp only [writeFifoLoop_pushed_length, hmin]
  · unfold mchp_corespi_write_fifo
    simp only []
    exact writeFifoLoop_fifo s.txBuf fifo _
  · unfold mchp_corespi_write_fifo
    simp only [hmin]

lemma testBit_one_decide (k : Nat) : Nat.testBit 1 k = decide (k = 0) := by
  rw [show (1 : Nat) = 2 ^ 0 from rfl, Nat.testBit_two_pow]
  rcases eq_or_ne k 0 with h | h <;> simp [h, Ne.symm]

lemma one_shiftLeft_testBit (cs j : Nat) :
    (1 <<< cs).testBit j = decide (j = cs) := by
  have h1 : (1 : Nat) <<< cs = 2 ^ cs := by
    rw [Nat.shiftLeft_eq, Nat.one_mul]
  rw [h1, Nat.testBit_two_pow]
  rcases eq_or_ne cs j with h | h <;> simp [h, Ne.symm]

/-- C10: the chip-select operation changes exactly bit `cs` of the
SLAVE_SELECT register to `!disable` and leaves every other bit as
read. -/
theorem claim_C10 (reg cs : Nat) (disable : Bool) (hcs : cs < MAX_CS)
    (hreg : reg < 2 ^ 32) :
    ((mchp_corespi_set_cs reg cs disable).testBit cs = !disable) ∧
    (∀ j, j ≠ cs →
      (mchp_corespi_set_cs reg cs disable).testBit j = reg.testBit j) := by
  unfold MAX_CS at hcs
  unfold mchp_corespi_set_cs
  constructor
  · simp only [Nat.testBit_or, Nat.testBit_and, compl32_testBit,
      one_shiftLeft_testBit, Nat.testBit_shiftLeft]
    have hcs32 : decide (cs < 32) = true := by
      simp
      omega
    have hsub : cs - cs = 0 := by omega
    cases disable <;>
      simp [hcs32, hsub, Nat.zero_shiftLeft, one_shiftLeft_testBit]
  · intro j hj
    by_cases hj32 : j < 32
    · have hb : (1 <<< cs).testBit j = false := by
        rw [one_shiftLeft_testBit]
        simp [hj]
      have hb2 : ((if disable then 0 else 1 : Nat) <<< cs).testBit j = false := by
        cases disable
        · simp only [Bool.false_eq_true, if_false, Nat.testBit_shiftLeft, testBit_one_decide]
          simp
          omega
        · simp [Nat.zero_shiftLeft]
      simp only [Nat.testBit_or, Nat.testBit_and, compl32_testBit, hb, hb2]
      simp [hj32]
    · have hr : reg.testBit j = false :=
        Nat.testBit_lt_two_pow (lt_of_lt_of_le hreg
          (Nat.pow_le_pow_right (by norm_num) (by omega)))
      have hb2 : ((if disable then 0 else 1 : Nat) <<< cs).testBit j = false := by
        cases disable
        · simp only [Bool.false_eq_true, if_false, Nat.testBit_shiftLeft, testBit_one_decide]
          simp
          omega
        · simp [Nat.zero_shiftLeft]
      simp only [Nat.testBit_or, Nat.testBit_and, compl32_testBit, hb2, hr]
      simp [hj32]

/-- C10 witness: with SLAVE_SELECT reading 0x305 (direct mode, output
enable and line 0 active), enabling chip select 2 sets exactly bit 2. -/
theorem claim_C10_witness :
    ((mchp_corespi_set_cs 0x305 2 false).testBit 2 = !false) ∧
    (∀ j, j ≠ 2 →
      (mchp_corespi_set_cs 0x305 2 false).testBit j = (0x305 : Nat).testBit j) :=
  claim_C10 0x305 2 false (by decide) (by decide)

/-- C7: when the transfer has no transmit buffer, every byte the fill
operation pushes to TX_DATA is the filler byte 0xAA, and the remaining
transmit length still drops by the number of bytes pushed. -/
theorem claim_C7 (s : SpiCtl) (r : Regs) (txFifo : List Nat)
    (hnone : s.txBuf = none) :
    (∀ b ∈ (mchp_corespi_write_fifo s r txFifo).pushed, b = 0xaa) ∧
    (mchp_corespi_write_fifo s r txFifo).spi.txLen =
      s.txLen - (mchp_corespi_write_fifo s r txFifo).pushed.length := by
  constructor
  · unfold mchp_corespi_write_fifo
    simp only [hnone]
    exact writeFifoLoop_none_pushed _ _
  · rfl

/-- C7 witness at a session with 8 transmit bytes remaining, no
transmit buffer and an empty TX FIFO. -/
theorem claim_C7_witness :
    (∀ b ∈ (mchp_corespi_write_fifo ⟨none, none, 8, 8, 0, 9, 1⟩ ⟨0, 0, 0, 0⟩ []).pushed,
      b = 0xaa) ∧
    (mchp_corespi_write_fifo ⟨none, none, 8, 8, 0, 9, 1⟩ ⟨0, 0, 0, 0⟩ []).spi.txLen =
      (8 : Int) - (mchp_corespi_write_fifo ⟨none, none, 8, 8, 0, 9, 1⟩ ⟨0, 0, 0, 0⟩ []).pushed.length :=
  claim_C7 ⟨none, none, 8, 8, 0, 9, 1⟩ ⟨0, 0, 0, 0⟩ [] rfl

/-- C8: when the transfer has no receive buffer, the drain operation
still consumes bytes from the RX FIFO — `rx_len` and `pending` drop by
the number of bytes drained and the FIFO loses exactly those bytes —
but the session state retains no trace of the data: two FIFOs of equal
length with arbitrary contents leave identical session states. -/
theorem claim_C8 (s : SpiCtl) (fifo1 fifo2 : List Nat) (hnone : s.rxBuf = none)
    (hlen : fifo1.length = fifo2.length) :
    (mchp_corespi_read_fifo s fifo1).spi = (mchp_corespi_read_fifo s fifo2).spi ∧
    (mchp_corespi_read_fifo s fifo1).spi.rxBuf = none ∧
    (mchp_corespi_read_fifo s fifo1).spi.rxLen =
      s.rxLen - (mchp_corespi_read_fifo s fifo1).reads ∧
    (mchp_corespi_read_fifo s fifo1).spi.pending =
      s.pending - (mchp_corespi_read_fifo s fifo1).reads ∧
    (mchp_corespi_read_fifo s fifo1).rxFifo.length =
      fifo1.length - (mchp_corespi_read_fifo s fifo1).reads := by
  refine ⟨?_, ?_, rfl, rfl, ?_⟩
  · unfold mchp_corespi_read_fifo
    simp only [hnone, readFifoLoop_none, readFifoLoop_count, hlen]
  · unfold mchp_corespi_read_fifo
    simp only [hnone, readFifoLoop_none]
  · unfold mchp_corespi_read_fifo
    simp only [readFifoLoop_fifo, readFifoLoop_count, List.length_drop]
    omega

/-- C8 witness: draining with no receive buffer, 8 bytes expected, FIFOs
holding bytes 1..8 and 11..18 respectively. -/
theorem claim_C8_witness :
    (mchp_corespi_read_fifo ⟨none, none, 0, 8, 8, 9, 1⟩ [1, 2, 3, 4, 5, 6, 7, 8]).spi =
      (mchp_corespi_read_fifo ⟨none, none, 0, 8, 8, 9, 1⟩ [11, 12, 13, 14, 15, 16, 17, 18]).spi ∧
    (mchp_corespi_read_fifo ⟨none, none, 0, 8, 8, 9, 1⟩ [1, 2, 3, 4, 5, 6, 7, 8]).spi.rxBuf = none ∧
    (mchp_corespi_read_fifo ⟨none, none, 0, 8, 8, 9, 1⟩ [1, 2, 3, 4, 5, 6, 7, 8]).spi.rxLen =
      (8 : Int) - (mchp_corespi_read_fifo ⟨none, none, 0, 8, 8, 9, 1⟩ [1, 2, 3, 4, 5, 6, 7, 8]).reads ∧
    (mchp_corespi_read_fifo ⟨none, none, 0, 8, 8, 9, 1⟩ [1, 2, 3, 4, 5, 6, 7, 8]).spi.pending =
      (8 : Int) - (mchp_corespi_read_fifo ⟨none, none, 0, 8, 8, 9, 1⟩ [1, 2, 3, 4, 5, 6, 7, 8]).reads ∧
    (mchp_corespi_read_fifo ⟨none, none, 0, 8, 8, 9, 1⟩ [1, 2, 3, 4, 5, 6, 7, 8]).rxFifo.length =
      8 - (mchp_corespi_read_fifo ⟨none, none, 0, 8, 8, 9, 1⟩ [1, 2, 3, 4, 5, 6, 7, 8]).reads :=
  claim_C8 ⟨none, none, 0, 8, 8, 9, 1⟩ [1, 2, 3, 4, 5, 6, 7, 8]
    [11, 12, 13, 14, 15, 16, 17, 18] rfl rfl

/-! ### Unfolding the interrupt handler -/

lemma masked_and_one (x : Nat) : (x &&& 0xf) &&& 1 = x &&& 1 := by
  rw [Nat.and_assoc, (by decide : (0xf : Nat) &&& 1 = 1)]

lemma masked_and_four (x : Nat) : (x &&& 0xf) &&& 4 = x &&& 4 := by
  rw [Nat.and_assoc, (by decide : (0xf : Nat) &&& 4 = 4)]

lemma masked_and_eight (x : Nat) : (x &&& 0xf) &&& 8 = x &&& 8 := by
  rw [Nat.and_assoc, (by decide : (0xf : Nat) &&& 8 = 8)]

lemma interrupt_done_eq (s : SpiCtl) (r : Regs) (rxF txF : List Nat) (raw : Nat)
    (hdone : raw &&& INT_TXDONE ≠ 0) :
    mchp_corespi_interrupt s r rxF txF raw =
      (let a := if s.rxLen ≠ 0 then mchp_corespi_read_fifo s rxF
        else ⟨s, rxF, 0⟩
      let w := if a.spi.txLen ≠ 0 then mchp_corespi_write_fifo a.spi r txF
        else ⟨a.spi, r, txF, []⟩
      { spi := w.spi, regs := w.regs, rxFifo := a.rxFifo, txFifo := w.txFifo,
        handled := true,
        finalise := decide (w.spi.rxLen = 0) ||
          decide (raw &&& INT_RX_CHANNEL_OVERFLOW ≠ 0) ||
          decide (raw &&& INT_TX_CHANNEL_UNDERRUN ≠ 0),
        rxReads := a.reads, txPushed := w.pushed }) := by
  unfold INT_TXDONE at hdone
  have hne : ¬(raw &&& 0xf = 0) := by
    intro h0
    apply hdone
    rw [← masked_and_one, h0]
    decide
  unfold mchp_corespi_interrupt INT_TXDONE INT_RX_CHANNEL_OVERFLOW INT_TX_CHANNEL_UNDERRUN
  rw [if_neg hne]
  simp only [masked_and_one, masked_and_four, masked_and_eight, hdone, ne_eq,
    not_false_eq_true, true_and, decide_not, if_true]

lemma interrupt_nodone_eq (s : SpiCtl) (r : Regs) (rxF txF : List Nat) (raw : Nat)
    (hne : raw &&& 0xf ≠ 0) (hnd : raw &&& INT_TXDONE = 0) :
    mchp_corespi_interrupt s r rxF txF raw =
      { spi := s, regs := r, rxFifo := rxF, txFifo := txF, handled := true,
        finalise := decide (raw &&& INT_RX_CHANNEL_OVERFLOW ≠ 0) ||
          decide (raw &&& INT_TX_CHANNEL_UNDERRUN ≠ 0),
        rxReads := 0, txPushed := [] } := by
  unfold INT_TXDONE at hnd
  unfold mchp_corespi_interrupt INT_TXDONE INT_RX_CHANNEL_OVERFLOW INT_TX_CHANNEL_UNDERRUN
  rw [if_neg hne]
  simp only [masked_and_one, masked_and_four, masked_and_eight, hnd, ne_eq,
    not_true_eq_false, false_and, if_false, decide_False, Bool.false_or]

lemma interrupt_idle (s : SpiCtl) (r : Regs) (rxF txF : List Nat) (raw : Nat)
    (hdone : raw &&& INT_TXDONE ≠ 0) (h0 : s.rxLen = 0) (h1 : s.txLen = 0) :
    (mchp_corespi_interrupt s r rxF txF raw).rxReads = 0 ∧
    (mchp_corespi_interrupt s r rxF txF raw).txPushed = [] ∧
    (mchp_corespi_interrupt s r rxF txF raw).finalise = true ∧
    (mchp_corespi_interrupt s r rxF txF raw).regs = r ∧
    (mchp_corespi_interrupt s r rxF txF raw).spi = s ∧
    (mchp_corespi_interrupt s r rxF txF raw).rxFifo = rxF ∧
    (mchp_corespi_interrupt s r rxF txF raw).txFifo = txF := by
  rw [interrupt_done_eq s r rxF txF raw hdone]
  simp only [h0, h1, ne_eq, not_true_eq_false, if_false, ite_self]
  simp [h0, h1]

/-! ### Claim C2: fault causes terminate the session -/

/-- C2, counterexample.  An interrupt word carrying both the
transfer-done and the receive-overflow causes (MIS = 0b0101), arriving
while 8 transmit bytes remain, finalises the session but still performs
8 TX_DATA FIFO writes in that same invocation — the transfer-done
branch runs before the fault branch — contradicting the claim that no
further FIFO data-register writes occur once a fault cause is
raised. -/
theorem claim_C2_cex :
    ((5 : Nat) &&& INT_RX_CHANNEL_OVERFLOW ≠ 0) ∧
    (mchp_corespi_interrupt ⟨none, none, 8, 8, 0, 9, 1⟩ ⟨0, 0, 0, 0⟩ [] [] 5).finalise = true ∧
    (mchp_corespi_interrupt ⟨none, none, 8, 8, 0, 9, 1⟩ ⟨0, 0, 0, 0⟩ [] [] 5).txPushed.length = 8 := by
  decide

/-- C2, amended.  Whenever a receive-overflow or transmit-underrun
cause is raised the handler finalises the session at once, whatever the
remaining lengths (completion is reported through the ordinary transfer
completion; the driver attaches no separate failure status — the fault
is only logged); and when the interrupt word does not also carry the
transfer-done cause, the invocation performs no FIFO data-register
access at all.  (After finalisation the session is over, so no later
FIFO writes belong to it.) -/
theorem claim_C2 (s : SpiCtl) (r : Regs) (rxF txF : List Nat) (raw : Nat)
    (hf : raw &&& INT_RX_CHANNEL_OVERFLOW ≠ 0 ∨ raw &&& INT_TX_CHANNEL_UNDERRUN ≠ 0) :
    (mchp_corespi_interrupt s r rxF txF raw).finalise = true ∧
    (raw &&& INT_TXDONE = 0 →
      (mchp_corespi_interrupt s r rxF txF raw).txPushed = [] ∧
      (mchp_corespi_interrupt s r rxF txF raw).rxReads = 0) := by
  have hne : raw &&& 0xf ≠ 0 := by
    intro h0
    rcases hf with h | h
    · apply h
      unfold INT_RX_CHANNEL_OVERFLOW
      rw [← masked_and_four, h0]
      decide
    · apply h
      unfold INT_TX_CHANNEL_UNDERRUN
      rw [← masked_and_eight, h0]
      decide
  by_cases hd : raw &&& INT_TXDONE = 0
  · rw [interrupt_nodone_eq s r rxF txF raw hne hd]
    refine ⟨?_, fun _ => ⟨rfl, rfl⟩⟩
    rcases hf with h | h <;> simp [h]
  · rw [interrupt_done_eq s r rxF txF raw hd]
    refine ⟨?_, fun h => absurd h hd⟩
    rcases hf with h | h <;> simp [h]

/-- C2 witness: a pure receive-overflow interrupt (MIS = 0b0100)
mid-session finalises at once with no FIFO data access. -/
theorem claim_C2_witness :
    (mchp_corespi_interrupt ⟨none, none, 8, 8, 0, 9, 1⟩ ⟨0, 0, 0, 0⟩ [] [] 4).finalise = true ∧
    ((4 : Nat) &&& INT_TXDONE = 0 →
      (mchp_corespi_interrupt ⟨none, none, 8, 8, 0, 9, 1⟩ ⟨0, 0, 0, 0⟩ [] [] 4).txPushed = [] ∧
      (mchp_corespi_interrupt ⟨none, none, 8, 8, 0, 9, 1⟩ ⟨0, 0, 0, 0⟩ [] [] 4).rxReads = 0) :=
  claim_C2 ⟨none, none, 8, 8, 0, 9, 1⟩ ⟨0, 0, 0, 0⟩ [] [] 4 (Or.inl (by decide))

/-! ### Claim C3: the transfer-done pump step -/

/-- C3, counterexample.  An interrupt word carrying the transfer-done
cause together with the receive-overflow cause (MIS = 0b0101), arriving
with 8 receive bytes still outstanding and an empty RX FIFO, finalises
the session although the remaining receive length has not reached zero
— contradicting the claim that, on every interrupt carrying the
transfer-done cause, the handler finalises exactly when `rx_len`
reaches zero. -/
theorem claim_C3_cex :
    ((5 : Nat) &&& INT_TXDONE ≠ 0) ∧
    (mchp_corespi_interrupt ⟨none, none, 0, 8, 8, 9, 1⟩ ⟨0, 0, 0, 0⟩ [] [] 5).spi.rxLen ≠ 0 ∧
    (mchp_corespi_interrupt ⟨none, none, 0, 8, 8, 9, 1⟩ ⟨0, 0, 0, 0⟩ [] [] 5).finalise = true := by
  decide

/-- C3, amended.  On every interrupt carrying the transfer-done cause,
the handler drains `min(min(rx_len, 32), available)` bytes from the RX
FIFO, decrements `rx_len` accordingly, copying the drained bytes into
the receive buffer when one is present and discarding them otherwise;
then, when `tx_len` is nonzero, it reprograms the frame-count registers
to the next chunk size `min(tx_len, 32)` and pushes
`min(min(tx_len, 32), free)` bytes to the TX FIFO (no push and no
register write otherwise); it always finalises once the remaining
receive length has reached zero, but finalises *exactly* then only when
no fault cause is raised in the same interrupt word — a simultaneous
receive-overflow or transmit-underrun cause finalises regardless (claim
C2). -/
theorem claim_C3 (s : SpiCtl) (r : Regs) (rxF txF : List Nat) (raw : Nat)
    (hrx : 0 ≤ s.rxLen) (htx : 0 ≤ s.txLen)
    (hdone : raw &&& INT_TXDONE ≠ 0) :
    (mchp_corespi_interrupt s r rxF txF raw).rxReads =
      min (min s.rxLen.toNat FIFO_DEPTH) rxF.length ∧
    (mchp_corespi_interrupt s r rxF txF raw).spi.rxLen =
      s.rxLen - (mchp_corespi_interrupt s r rxF txF raw).rxReads ∧
    (mchp_corespi_interrupt s r rxF txF raw).spi.rxBuf =
      (match s.rxBuf with
        | none => none
        | some stored =>
          some (stored ++ rxF.take (mchp_corespi_interrupt s r rxF txF raw).rxReads)) ∧
    (s.txLen ≠ 0 →
      frameCount (mchp_corespi_interrupt s r rxF txF raw).regs =
        min s.txLen.toNat FIFO_DEPTH ∧
      (mchp_corespi_interrupt s r rxF txF raw).txPushed.length =
        min (min s.txLen.toNat FIFO_DEPTH) (FIFO_DEPTH - txF.length)) ∧
    (s.txLen = 0 →
      (mchp_corespi_interrupt s r rxF txF raw).txPushed = [] ∧
      (mchp_corespi_interrupt s r rxF txF raw).regs = r) ∧
    ((mchp_corespi_interrupt s r rxF txF raw).spi.rxLen = 0 →
      (mchp_corespi_interrupt s r rxF txF raw).finalise = true) ∧
    (raw &&& INT_RX_CHANNEL_OVERFLOW = 0 → raw &&& INT_TX_CHANNEL_UNDERRUN = 0 →
      ((mchp_corespi_interrupt s r rxF txF raw).finalise = true ↔
        (mchp_corespi_interrupt s r rxF txF raw).spi.rxLen = 0)) := by
  rw [interrupt_done_eq s r rxF txF raw hdone]
  simp only [ne_eq]
  by_cases hr0 : s.rxLen = 0
  · rw [if_neg (by simp [hr0])]
    by_cases ht0 : s.txLen = 0
    · rw [if_neg (by simp [ht0])]
      refine ⟨by simp [hr0], by simp, ?_, fun h => absurd ht0 h, fun _ => ⟨rfl, rfl⟩,
        ?_, ?_⟩
      · cases hb : s.rxBuf <;> simp [hb]
      · intro _
        simp [hr0]
      · intro hov hun
        simp [hov, hun, hr0]
    · rw [if_pos ht0]
      obtain ⟨hwl, hwtx, hwp, hwrx, hwrb, hwf, hwr⟩ := write_fifo_spec s r txF htx
      refine ⟨by simp [hr0], ?_, ?_, fun _ => ⟨?_, by rw [hwl]⟩, fun h => absurd h ht0,
        ?_, ?_⟩
      · rw [hwrx, hr0]
        simp
      · rw [hwrb]
        cases hb : s.rxBuf <;> simp [hb]
      · rw [hwr, frameCount_set_xfer_size]
        unfold FIFO_DEPTH
        omega
      · intro h
        have h2 : (mchp_corespi_write_fifo s r txF).spi.rxLen = 0 := h
        simp [h2]
      · intro hov hun
        simp [hov, hun]
  · rw [if_pos hr0]
    obtain ⟨hc, hrl, hp, htl, htb, hff, hrb⟩ := read_fifo_spec s rxF hrx
    have htl2 : (mchp_corespi_read_fifo s rxF).spi.txLen = s.txLen := htl
    by_cases ht0 : s.txLen = 0
    · rw [if_neg (by simp [htl2, ht0])]
      refine ⟨hc, hrl, hrb, fun h => absurd ht0 h, fun _ => ⟨rfl, rfl⟩, ?_, ?_⟩
      · intro h
        have h2 : (mchp_corespi_read_fifo s rxF).spi.rxLen = 0 := h
        simp [h2]
      · intro hov hun
        simp [hov, hun]
    · rw [if_pos (by simp [htl2, ht0])]
      obtain ⟨hwl, hwtx, hwp, hwrx, hwrb, hwf, hwr⟩ :=
        write_fifo_spec (mchp_corespi_read_fifo s rxF).spi r txF (by rw [htl2]; exact htx)
      refine ⟨hc, ?_, ?_, fun _ => ⟨?_, ?_⟩, fun h => absurd h ht0, ?_, ?_⟩
      · rw [hwrx, hrl, hc]
      · rw [hwrb]
        exact hrb
      · rw [hwr, htl2, frameCount_set_xfer_size]
        unfold FIFO_DEPTH
        omega
      · rw [hwl, htl2]
      · intro h
        have h2 : (mchp_corespi_write_fifo
            (mchp_corespi_read_fifo s rxF).spi r txF).spi.rxLen = 0 := h
        simp [h2]
      · intro hov hun
        simp [hov, hun]

/-- C3 witness: a transfer-done interrupt with 40 receive and 8
transmit bytes remaining, 32 bytes waiting in the RX FIFO and an empty
TX FIFO. -/
theorem claim_C3_witness :
    (mchp_corespi_interrupt ⟨some [1], some [], 8, 40, 32, 9, 1⟩ ⟨0, 0, 0, 0⟩
        (List.replicate 32 7) [] 1).rxReads =
      min (min (40 : Int).toNat FIFO_DEPTH) (List.replicate 32 7).length ∧
    (mchp_corespi_interrupt ⟨some [1], some [], 8, 40, 32, 9, 1⟩ ⟨0, 0, 0, 0⟩
        (List.replicate 32 7) [] 1).spi.rxLen =
      (40 : Int) - (mchp_corespi_interrupt ⟨some [1], some [], 8, 40, 32, 9, 1⟩ ⟨0, 0, 0, 0⟩
        (List.replicate 32 7) [] 1).rxReads ∧
    (mchp_corespi_interrupt ⟨some [1], some [], 8, 40, 32, 9, 1⟩ ⟨0, 0, 0, 0⟩
        (List.replicate 32 7) [] 1).spi.rxBuf =
      some (([] : List Nat) ++ (List.replicate 32 7).take
        (mchp_corespi_interrupt ⟨some [1], some [], 8, 40, 32, 9, 1⟩ ⟨0, 0, 0, 0⟩
          (List.replicate 32 7) [] 1).rxReads) ∧
    ((8 : Int) ≠ 0 →
      frameCount (mchp_corespi_interrupt ⟨some [1], some [], 8, 40, 32, 9, 1⟩ ⟨0, 0, 0, 0⟩
        (List.replicate 32 7) [] 1).regs = min (8 : Int).toNat FIFO_DEPTH ∧
      (mchp_corespi_interrupt ⟨some [1], some [], 8, 40, 32, 9, 1⟩ ⟨0, 0, 0, 0⟩
        (List.replicate 32 7) [] 1).txPushed.length =
        min (min (8 : Int).toNat FIFO_DEPTH) (FIFO_DEPTH - ([] : List Nat).length)) ∧
    ((8 : Int) = 0 →
      (mchp_corespi_interrupt ⟨some [1], some [], 8, 40, 32, 9, 1⟩ ⟨0, 0, 0, 0⟩
        (List.replicate 32 7) [] 1).txPushed = [] ∧
      (mchp_corespi_interrupt ⟨some [1], some [], 8, 40, 32, 9, 1⟩ ⟨0, 0, 0, 0⟩
        (List.replicate 32 7) [] 1).regs = ⟨0, 0, 0, 0⟩) ∧
    ((mchp_corespi_interrupt ⟨some [1], some [], 8, 40, 32, 9, 1⟩ ⟨0, 0, 0, 0⟩
        (List.replicate 32 7) [] 1).spi.rxLen = 0 →
      (mchp_corespi_interrupt ⟨some [1], some [], 8, 40, 32, 9, 1⟩ ⟨0, 0, 0, 0⟩
        (List.replicate 32 7) [] 1).finalise = true) ∧
    ((1 : Nat) &&& INT_RX_CHANNEL_OVERFLOW = 0 → (1 : Nat) &&& INT_TX_CHANNEL_UNDERRUN = 0 →
      ((mchp_corespi_interrupt ⟨some [1], some [], 8, 40, 32, 9, 1⟩ ⟨0, 0, 0, 0⟩
          (List.replicate 32 7) [] 1).finalise = true ↔
        (mchp_corespi_interrupt ⟨some [1], some [], 8, 40, 32, 9, 1⟩ ⟨0, 0, 0, 0⟩
          (List.replicate 32 7) [] 1).spi.rxLen = 0)) :=
  claim_C3 ⟨some [1], some [], 8, 40, 32, 9, 1⟩ ⟨0, 0, 0, 0⟩ (List.replicate 32 7) [] 1
    (by decide) (by decide) (by decide)

/-! ### Claim C9: zero-length transfers -/

/-- C9: a zero-length transfer performs no FIFO data-register access:
`transfer_one` pushes nothing and leaves the TX FIFO untouched, and
when it succeeds the session starts with both lengths at zero, so a
subsequent transfer-done interrupt performs no RX_DATA read and no
TX_DATA write and finalises the session at once. -/
theorem claim_C9 (clkHz speedHz : Nat) (txB rxB : Option (List Nat))
    (s : SpiCtl) (r : Regs) (txF : List Nat) :
    (mchp_corespi_transfer_one clkHz speedHz 0 txB rxB s r txF).pushed = [] ∧
    (mchp_corespi_transfer_one clkHz speedHz 0 txB rxB s r txF).txFifo = txF ∧
    ((mchp_corespi_transfer_one clkHz speedHz 0 txB rxB s r txF).status = 1 →
      (mchp_corespi_transfer_one clkHz speedHz 0 txB rxB s r txF).spi.txLen = 0 ∧
      (mchp_corespi_transfer_one clkHz speedHz 0 txB rxB s r txF).spi.rxLen = 0 ∧
      ∀ (rxF txF2 : List Nat) (raw : Nat), raw &&& INT_TXDONE ≠ 0 →
        (mchp_corespi_interrupt (mchp_corespi_transfer_one clkHz speedHz 0 txB rxB s r txF).spi
          (mchp_corespi_transfer_one clkHz speedHz 0 txB rxB s r txF).regs rxF txF2 raw).rxReads = 0 ∧
        (mchp_corespi_interrupt (mchp_corespi_transfer_one clkHz speedHz 0 txB rxB s r txF).spi
          (mchp_corespi_transfer_one clkHz speedHz 0 txB rxB s r txF).regs rxF txF2 raw).txPushed = [] ∧
        (mchp_corespi_interrupt (mchp_corespi_transfer_one clkHz speedHz 0 txB rxB s r txF).spi
          (mchp_corespi_transfer_one clkHz speedHz 0 txB rxB s r txF).regs rxF txF2 raw).finalise = true) := by
  have hstate : (mchp_corespi_transfer_one clkHz speedHz 0 txB rxB s r txF).pushed = [] ∧
      (mchp_corespi_transfer_one clkHz speedHz 0 txB rxB s r txF).txFifo = txF ∧
      ((mchp_corespi_transfer_one clkHz speedHz 0 txB rxB s r txF).status = 1 →
        (mchp_corespi_transfer_one clkHz speedHz 0 txB rxB s r txF).spi.txLen = 0 ∧
        (mchp_corespi_transfer_one clkHz speedHz 0 txB rxB s r txF).spi.rxLen = 0) := by
    unfold mchp_corespi_transfer_one
    cases hcalc : mchp_corespi_calculate_clkgen clkHz speedHz with
    | none => simp
    | some cfg =>
      obtain ⟨mode, gen⟩ := cfg
      simp
  obtain ⟨hp, hf, hs⟩ := hstate
  refine ⟨hp, hf, fun hok => ?_⟩
  obtain ⟨htl, hrl⟩ := hs hok
  refine ⟨htl, hrl, fun rxF txF2 raw hdone => ?_⟩
  obtain ⟨h1, h2, h3, _, _, _, _⟩ :=
    interrupt_idle (mchp_corespi_transfer_one clkHz speedHz 0 txB rxB s r txF).spi
      (mchp_corespi_transfer_one clkHz speedHz 0 txB rxB s r txF).regs rxF txF2 raw
      hdone hrl htl
  exact ⟨h1, h2, h3⟩

/-- C9 witness at source clock 20 MHz, target 1 MHz, and a
transfer-done interrupt word MIS = 1. -/
theorem claim_C9_witness :
    (mchp_corespi_transfer_one 20000000 1000000 0 none (some []) ⟨none, none, 0, 0, 0, 0, 0⟩
      ⟨0, 0, 0, 0⟩ []).pushed = [] ∧
    (mchp_corespi_transfer_one 20000000 1000000 0 none (some []) ⟨none, none, 0, 0, 0, 0, 0⟩
      ⟨0, 0, 0, 0⟩ []).txFifo = [] ∧
    ((mchp_corespi_transfer_one 20000000 1000000 0 none (some []) ⟨none, none, 0, 0, 0, 0, 0⟩
        ⟨0, 0, 0, 0⟩ []).status = 1 →
      (mchp_corespi_transfer_one 20000000 1000000 0 none (some []) ⟨none, none, 0, 0, 0, 0, 0⟩
        ⟨0, 0, 0, 0⟩ []).spi.txLen = 0 ∧
      (mchp_corespi_transfer_one 20000000 1000000 0 none (some []) ⟨none, none, 0, 0, 0, 0, 0⟩
        ⟨0, 0, 0, 0⟩ []).spi.rxLen = 0 ∧
      ∀ (rxF txF2 : List Nat) (raw : Nat), raw &&& INT_TXDONE ≠ 0 →
        (mchp_corespi_interrupt (mchp_corespi_transfer_one 20000000 1000000 0 none (some [])
            ⟨none, none, 0, 0, 0, 0, 0⟩ ⟨0, 0, 0, 0⟩ []).spi
          (mchp_corespi_transfer_one 20000000 1000000 0 none (some [])
            ⟨none, none, 0, 0, 0, 0, 0⟩ ⟨0, 0, 0, 0⟩ []).regs rxF txF2 raw).rxReads = 0 ∧
        (mchp_corespi_interrupt (mchp_corespi_transfer_one 20000000 1000000 0 none (some [])
            ⟨none, none, 0, 0, 0, 0, 0⟩ ⟨0, 0, 0, 0⟩ []).spi
          (mchp_corespi_transfer_one 20000000 1000000 0 none (some [])
            ⟨none, none, 0, 0, 0, 0, 0⟩ ⟨0, 0, 0, 0⟩ []).regs rxF txF2 raw).txPushed = [] ∧
        (mchp_corespi_interrupt (mchp_corespi_transfer_one 20000000 1000000 0 none (some [])
            ⟨none, none, 0, 0, 0, 0, 0⟩ ⟨0, 0, 0, 0⟩ []).spi
          (mchp_corespi_transfer_one 20000000 1000000 0 none (some [])
            ⟨none, none, 0, 0, 0, 0, 0⟩ ⟨0, 0, 0, 0⟩ []).regs rxF txF2 raw).finalise = true) :=
  claim_C9 20000000 1000000 none (some []) ⟨none, none, 0, 0, 0, 0, 0⟩ ⟨0, 0, 0, 0⟩ []

/-! ### Claim C4: unattainable clock requests fail with no state change -/

/-- C4: when the requested rate lies below the minimum representable by
both divisor schemes (i.e. `65536 · target < clk`, scheme B's floor
`clk / 2^16` being the lower of the two), `transfer_one` fails
synchronously with `-EINVAL` (the `ClockUnattainable` report) and
changes nothing: the session fields, every register and the TX FIFO are
returned exactly as they were, and no byte is pushed. -/
theorem claim_C4 (clkHz targetHz len : Nat) (txB rxB : Option (List Nat))
    (s : SpiCtl) (r : Regs) (txF : List Nat)
    (ht : 0 < targetHz) (hclk : clkHz < 2 ^ 32)
    (hlow : 65536 * targetHz < clkHz) :
    mchp_corespi_transfer_one clkHz targetHz len txB rxB s r txF =
      { status := -22, spi := s, regs := r, txFifo := txF, pushed := [] } := by
  have hcalc : mchp_corespi_calculate_clkgen clkHz targetHz = none := by
    have hclk0 : clkHz ≠ 0 := by omega
    have htc : targetHz ≤ clkHz := by nlinarith
    have hmin : min targetHz clkHz = targetHz := min_eq_left htc
    rw [calculate_clkgen_eq clkHz targetHz hclk0 hmin]
    have hg_pos : 1 ≤ DIV_ROUND_UP clkHz targetHz := by
      unfold DIV_ROUND_UP
      rw [Nat.le_div_iff_mul_le ht]
      omega
    have hg_lt : DIV_ROUND_UP clkHz targetHz < 2 ^ 32 := by
      have := div_round_up_lt_of_le clkHz targetHz ht
      omega
    have hfls := fls_eq_log2 (DIV_ROUND_UP clkHz targetHz) hg_pos hg_lt
    have hbig : 2 ^ 16 ≤ DIV_ROUND_UP clkHz targetHz := by
      unfold DIV_ROUND_UP
      rw [Nat.le_div_iff_mul_le ht]
      omega
    have hlog : 16 ≤ (DIV_ROUND_UP clkHz targetHz).log2 :=
      (Nat.le_log2 (by omega)).2 hbig
    have h1 : 255 < DIV_ROUND_UP clkHz (2 * targetHz) - 1 ∨
        DIV_ROUND_UP clkHz (2 * targetHz) - 1 ≤ 0 := by
      left
      have : 2 * targetHz * 257 ≤ clkHz := by nlinarith
      have h2 : 257 ≤ DIV_ROUND_UP clkHz (2 * targetHz) := by
        unfold DIV_ROUND_UP
        rw [Nat.le_div_iff_mul_le (by omega)]
        omega
      omega
    rw [if_pos h1, if_pos (by omega)]
  unfold mchp_corespi_transfer_one
  rw [hcalc]

/-- C4 witness: source clock 2^26 Hz, requested rate 1 Hz, a length-12
transfer on an idle controller. -/
theorem claim_C4_witness :
    mchp_corespi_transfer_one 67108864 1 12 none (some []) ⟨none, none, 0, 0, 0, 0, 0⟩
      ⟨3, 4, 5, 6⟩ [] =
      { status := -22, spi := ⟨none, none, 0, 0, 0, 0, 0⟩, regs := ⟨3, 4, 5, 6⟩,
        txFifo := [], pushed := [] } :=
  claim_C4 67108864 1 12 none (some []) ⟨none, none, 0, 0, 0, 0, 0⟩ ⟨3, 4, 5, 6⟩ []
    (by decide) (by decide) (by decide)

/-! ### Normal-operation run: invariants and completion -/

lemma normalStep_spec (st : RunState) (hinv : NormalInv st) :
    (normalStep st).spi.rxLen = st.spi.txLen ∧
    (normalStep st).spi.txLen = st.spi.txLen - min st.spi.txLen (FIFO_DEPTH : Int) ∧
    (normalStep st).spi.pending = min st.spi.txLen (FIFO_DEPTH : Int) ∧
    (normalStep st).rxFifo = [] ∧
    ((normalStep st).txFifo.length : Int) = min st.spi.txLen (FIFO_DEPTH : Int) ∧
    ((normalStep st).finalise = true ↔ st.spi.txLen = 0) := by
  obtain ⟨h1, h2, h3, h4, h5⟩ := hinv
  have hpend0 : 0 ≤ st.spi.pending := by omega
  have hrx0 : 0 ≤ st.spi.rxLen := by omega
  unfold normalStep
  rw [interrupt_done_eq _ _ _ _ INT_TXDONE (by decide), h4, List.nil_append]
  simp only [eq_false (by decide : ¬(INT_TXDONE &&& INT_RX_CHANNEL_OVERFLOW ≠ 0)),
    eq_false (by decide : ¬(INT_TXDONE &&& INT_TX_CHANNEL_UNDERRUN ≠ 0)),
    decide_False, Bool.or_false]
  by_cases hr0 : st.spi.rxLen = 0
  · have htx0 : st.spi.txLen = 0 := by
      unfold FIFO_DEPTH at h3
      omega
    have hp0 : st.spi.pending = 0 := by omega
    have hfifo : st.txFifo = [] := by
      have : st.txFifo.length = 0 := by omega
      exact List.length_eq_zero.1 this
    rw [if_neg (not_ne_iff.mpr hr0)]
    simp only []
    rw [if_neg (not_ne_iff.mpr htx0)]
    simp only [hfifo]
    refine ⟨by omega, by omega, by omega, trivial, ?_, ?_⟩
    · simp only [List.length_nil, Int.ofNat_eq_coe, Nat.cast_zero]
      omega
    · simp [hr0, htx0]
  · rw [if_pos hr0]
    obtain ⟨hc, hrl, hp, htl, _, hff, _⟩ := read_fifo_spec st.spi st.txFifo hrx0
    have hreads : ((mchp_corespi_read_fifo st.spi st.txFifo).reads : Int) =
        st.spi.pending := by
      rw [hc]
      unfold FIFO_DEPTH at h3 ⊢
      omega
    have harx : (mchp_corespi_read_fifo st.spi st.txFifo).spi.rxLen = st.spi.txLen := by
      rw [hrl]
      omega
    have hap : (mchp_corespi_read_fifo st.spi st.txFifo).spi.pending = 0 := by
      rw [hp]
      omega
    have haf : (mchp_corespi_read_fifo st.spi st.txFifo).rxFifo = [] := by
      rw [hff]
      apply List.drop_eq_nil_of_le
      rw [hc]
      unfold FIFO_DEPTH at h3 ⊢
      omega
    by_cases ht0 : st.spi.txLen = 0
    · rw [if_neg (by simp [htl, ht0])]
      refine ⟨harx, ?_, ?_, haf, ?_, ?_⟩
      · rw [htl]
        omega
      · rw [hap]
        omega
      · simp
        omega
      · simp [harx, ht0]
    · rw [if_pos (by simp [htl, ht0])]
      obtain ⟨hwl, hwtx, hwp, hwrx, _, hwf, _⟩ :=
        write_fifo_spec (mchp_corespi_read_fifo st.spi st.txFifo).spi st.regs []
          (by rw [htl]; exact h2)
      have hm : ((mchp_corespi_write_fifo (mchp_corespi_read_fifo st.spi st.txFifo).spi
          st.regs []).pushed.length : Int) = min st.spi.txLen (FIFO_DEPTH : Int) := by
        rw [hwl, htl]
        simp only [List.length_nil]
        unfold FIFO_DEPTH
        omega
      refine ⟨?_, ?_, ?_, haf, ?_, ?_⟩
      · rw [hwrx, harx]
      · rw [hwtx, htl, hm]
      · rw [hwp, hap, hm]
        omega
      · rw [hwf]
        simp only [List.nil_append]
        rw [hm]
      · rw [hwrx, harx]
        simp [ht0]

lemma normalStep_inv (st : RunState) (hinv : NormalInv st) :
    NormalInv ⟨(normalStep st).spi, (normalStep st).regs,
      (normalStep st).rxFifo, (normalStep st).txFifo⟩ := by
  obtain ⟨e1, e2, e3, e4, e5, _⟩ := normalStep_spec st hinv
  obtain ⟨h1, h2, h3, h4, h5⟩ := hinv
  exact ⟨by rw [e1, e2, e3]; omega, by rw [e2]; omega, by rw [e3, e1], e4, by rw [e5, e3]⟩

lemma runSession_completes : ∀ (n : Nat) (st : RunState), NormalInv st →
    st.spi.rxLen.toNat ≤ n →
    ∃ final, runSession (n + 1) st = some final ∧
      final.spi.txLen = 0 ∧ final.spi.rxLen = 0 ∧ final.spi.pending = 0 := by
  intro n
  induction n with
  | zero =>
    intro st hinv hn
    obtain ⟨e1, e2, e3, _, _, e6⟩ := normalStep_spec st hinv
    obtain ⟨h1, h2, h3, _, h5⟩ := hinv
    have hrx0 : st.spi.rxLen = 0 := by omega
    have htx0 : st.spi.txLen = 0 := by
      unfold FIFO_DEPTH at h3
      omega
    refine ⟨⟨(normalStep st).spi, (normalStep st).regs,
      (normalStep st).rxFifo, (normalStep st).txFifo⟩, ?_, ?_, ?_, ?_⟩
    · unfold runSession
      rw [if_pos (e6.2 htx0)]
    · rw [e2]
      omega
    · rw [e1, htx0]
    · rw [e3]
      unfold FIFO_DEPTH
      omega
  | succ n ih =>
    intro st hinv hn
    obtain ⟨e1, e2, e3, _, _, e6⟩ := normalStep_spec st hinv
    obtain ⟨h1, h2, h3, -, h5⟩ := id hinv
    by_cases ht0 : st.spi.txLen = 0
    · refine ⟨⟨(normalStep st).spi, (normalStep st).regs,
        (normalStep st).rxFifo, (normalStep st).txFifo⟩, ?_, ?_, ?_, ?_⟩
      · unfold runSession
        rw [if_pos (e6.2 ht0)]
      · rw [e2]
        omega
      · rw [e1, ht0]
      · rw [e3]
        unfold FIFO_DEPTH
        omega
    · have hfin : (normalStep st).finalise = false := by
        rcases Bool.eq_false_or_eq_true (normalStep st).finalise with h | h
        · exact absurd (e6.1 h) ht0
        · exact h
      have hpendpos : 0 < st.spi.pending := by
        unfold FIFO_DEPTH at h3
        omega
      have hmeas : (normalStep st).spi.rxLen.toNat ≤ n := by
        rw [e1]
        omega
      obtain ⟨final, hrun, hf1, hf2, hf3⟩ :=
        ih ⟨(normalStep st).spi, (normalStep st).regs,
          (normalStep st).rxFifo, (normalStep st).txFifo⟩ (normalStep_inv st hinv) hmeas
      refine ⟨final, ?_, hf1, hf2, hf3⟩
      show runSession (n + 1 + 1) st = some final
      unfold runSession
      rw [if_neg (by rw [hfin]; exact Bool.false_ne_true)]
      exact hrun


lemma transfer_one_some_eq (clkHz speedHz len : Nat) (txB rxB : Option (List Nat))
    (s : SpiCtl) (r : Regs) (txF : List Nat) (mode gen : Nat)
    (hcalc : mchp_corespi_calculate_clkgen clkHz speedHz = some (mode, gen)) :
    mchp_corespi_transfer_one clkHz speedHz len txB rxB s r txF =
      (let s2 : SpiCtl := ⟨txB, rxB, (len : Int), (len : Int), 0, gen, mode⟩
      let r2 := mchp_corespi_set_xfer_size (mchp_corespi_set_clk_gen s2 r)
        (if (FIFO_DEPTH : Int) < (len : Int) then FIFO_DEPTH else len)
      if (len : Int) ≠ 0 then
        let w := mchp_corespi_write_fifo s2 r2 txF
        ⟨1, w.spi, w.regs, w.txFifo, w.pushed⟩
      else ⟨1, s2, r2, txF, []⟩) := by
  unfold mchp_corespi_transfer_one
  rw [hcalc]
  rfl

/-! ### Claim C5: session accounting invariants and completion -/

/-- C5: over any session, draining decreases `rx_len` (never below
zero), leaves `tx_len` alone, and decrements `pending` by exactly the
bytes drained — never below zero while the FIFO holds at most `pending`
bytes; filling decreases `tx_len` (never below zero), leaves `rx_len`
alone, and increments `pending` by exactly the bytes pushed;
`transfer_one` starts the session with `pending` equal to the bytes it
pushed; and for every length in [0, 65535] a session driven by normal
interrupt cycles completes with `pending = 0`, `tx_len = 0` and
`rx_len = 0`. -/
theorem claim_C5 :
    (∀ (s : SpiCtl) (fifo : List Nat), 0 ≤ s.rxLen → (fifo.length : Int) ≤ s.pending →
      (mchp_corespi_read_fifo s fifo).spi.rxLen ≤ s.rxLen ∧
      0 ≤ (mchp_corespi_read_fifo s fifo).spi.rxLen ∧
      (mchp_corespi_read_fifo s fifo).spi.txLen = s.txLen ∧
      (mchp_corespi_read_fifo s fifo).spi.pending =
        s.pending - (mchp_corespi_read_fifo s fifo).reads ∧
      0 ≤ (mchp_corespi_read_fifo s fifo).spi.pending) ∧
    (∀ (s : SpiCtl) (r : Regs) (fifo : List Nat), 0 ≤ s.txLen →
      (mchp_corespi_write_fifo s r fifo).spi.txLen ≤ s.txLen ∧
      0 ≤ (mchp_corespi_write_fifo s r fifo).spi.txLen ∧
      (mchp_corespi_write_fifo s r fifo).spi.rxLen = s.rxLen ∧
      (mchp_corespi_write_fifo s r fifo).spi.pending =
        s.pending + (mchp_corespi_write_fifo s r fifo).pushed.length) ∧
    (∀ (clkHz speedHz len : Nat) (txB rxB : Option (List Nat)) (s : SpiCtl) (r : Regs),
      len ≤ 65535 →
      (mchp_corespi_transfer_one clkHz speedHz len txB rxB s r []).status = 1 →
      (mchp_corespi_transfer_one clkHz speedHz len txB rxB s r []).spi.pending =
        ((mchp_corespi_transfer_one clkHz speedHz len txB rxB s r []).pushed.length : Int) ∧
      ∃ final, runSession (len + 1)
          ⟨(mchp_corespi_transfer_one clkHz speedHz len txB rxB s r []).spi,
            (mchp_corespi_transfer_one clkHz speedHz len txB rxB s r []).regs, [],
            (mchp_corespi_transfer_one clkHz speedHz len txB rxB s r []).txFifo⟩ = some final ∧
        final.spi.txLen = 0 ∧ final.spi.rxLen = 0 ∧ final.spi.pending = 0) := by
  refine ⟨?_, ?_, ?_⟩
  · intro s fifo hrx hpend
    obtain ⟨hc, hrl, hp, htl, _, _, _⟩ := read_fifo_spec s fifo hrx
    have hle : (mchp_corespi_read_fifo s fifo).reads ≤ s.rxLen.toNat := by
      rw [hc]
      omega
    have hle2 : ((mchp_corespi_read_fifo s fifo).reads : Int) ≤ (fifo.length : Int) := by
      rw [hc]
      omega
    refine ⟨by omega, by omega, htl, hp, by omega⟩
  · intro s r fifo htx
    obtain ⟨hwl, hwtx, hwp, hwrx, _, _, _⟩ := write_fifo_spec s r fifo htx
    have hle : (mchp_corespi_write_fifo s r fifo).pushed.length ≤ s.txLen.toNat := by
      rw [hwl]
      omega
    refine ⟨by omega, by omega, hwrx, hwp⟩
  · intro clkHz speedHz len txB rxB s r hlen hst
    cases hcalc : mchp_corespi_calculate_clkgen clkHz speedHz with
    | none =>
      unfold mchp_corespi_transfer_one at hst
      rw [hcalc] at hst
      simp at hst
    | some cfg =>
      obtain ⟨mode, gen⟩ := cfg
      rw [transfer_one_some_eq clkHz speedHz len txB rxB s r [] mode gen hcalc]
      by_cases hlen0 : (len : Int) = 0
      · rw [if_neg (not_ne_iff.mpr hlen0)]
        simp only [List.length_nil, Nat.cast_zero]
        refine ⟨trivial, ?_⟩
        have hinv : NormalInv ⟨⟨txB, rxB, (len : Int), (len : Int), 0, gen, mode⟩,
            mchp_corespi_set_xfer_size (mchp_corespi_set_clk_gen
              ⟨txB, rxB, (len : Int), (len : Int), 0, gen, mode⟩ r)
              (if (FIFO_DEPTH : Int) < (len : Int) then FIFO_DEPTH else len), [], []⟩ := by
          refine ⟨by simp [hlen0], by simp [hlen0], ?_, rfl, by simp⟩
          show (0 : Int) = min (len : Int) (FIFO_DEPTH : Int)
          unfold FIFO_DEPTH
          omega
        obtain ⟨final, hrun, hf⟩ := runSession_completes len _ hinv (by simp [hlen0])
        exact ⟨final, hrun, hf⟩
      · rw [if_pos hlen0]
        have htx2 : (0 : Int) ≤ (⟨txB, rxB, (len : Int), (len : Int), 0, gen, mode⟩ : SpiCtl).txLen := by
          simp
        obtain ⟨hwl, hwtx, hwp, hwrx, _, hwf, _⟩ :=
          write_fifo_spec ⟨txB, rxB, (len : Int), (len : Int), 0, gen, mode⟩
            (mchp_corespi_set_xfer_size (mchp_corespi_set_clk_gen
              ⟨txB, rxB, (len : Int), (len : Int), 0, gen, mode⟩ r)
              (if (FIFO_DEPTH : Int) < (len : Int) then FIFO_DEPTH else len)) [] htx2
        simp only [List.length_nil, Nat.sub_zero] at hwl
        have hm : ((mchp_corespi_write_fifo ⟨txB, rxB, (len : Int), (len : Int), 0, gen, mode⟩
            (mchp_corespi_set_xfer_size (mchp_corespi_set_clk_gen
              ⟨txB, rxB, (len : Int), (len : Int), 0, gen, mode⟩ r)
              (if (FIFO_DEPTH : Int) < (len : Int) then FIFO_DEPTH else len)) []).pushed.length : Int) =
            min (len : Int) (FIFO_DEPTH : Int) := by
          rw [hwl]
          unfold FIFO_DEPTH
          omega
        constructor
        · rw [hwp]
          simp only []
          omega
        · have hinv : NormalInv ⟨(mchp_corespi_write_fifo ⟨txB, rxB, (len : Int), (len : Int), 0, gen, mode⟩
              (mchp_corespi_set_xfer_size (mchp_corespi_set_clk_gen
                ⟨txB, rxB, (len : Int), (len : Int), 0, gen, mode⟩ r)
                (if (FIFO_DEPTH : Int) < (len : Int) then FIFO_DEPTH else len)) []).spi,
              (mchp_corespi_write_fifo ⟨txB, rxB, (len : Int), (len : Int), 0, gen, mode⟩
              (mchp_corespi_set_xfer_size (mchp_corespi_set_clk_gen
                ⟨txB, rxB, (len : Int), (len : Int), 0, gen, mode⟩ r)
                (if (FIFO_DEPTH : Int) < (len : Int) then FIFO_DEPTH else len)) []).regs, [],
              (mchp_corespi_write_fifo ⟨txB, rxB, (len : Int), (len : Int), 0, gen, mode⟩
              (mchp_corespi_set_xfer_size (mchp_corespi_set_clk_gen
                ⟨txB, rxB, (len : Int), (len : Int), 0, gen, mode⟩ r)
                (if (FIFO_DEPTH : Int) < (len : Int) then FIFO_DEPTH else len)) []).txFifo⟩ := by
            refine ⟨?_, ?_, ?_, rfl, ?_⟩
            · rw [hwrx, hwtx, hwp]
              simp only []
              omega
            · rw [hwtx]
              simp only []
              omega
            · rw [hwp, hwrx, hm]
              simp only []
              omega
            · rw [hwf, hwp]
              simp
          have hmeas : (mchp_corespi_write_fifo ⟨txB, rxB, (len : Int), (len : Int), 0, gen, mode⟩
              (mchp_corespi_set_xfer_size (mchp_corespi_set_clk_gen
                ⟨txB, rxB, (len : Int), (len : Int), 0, gen, mode⟩ r)
                (if (FIFO_DEPTH : Int) < (len : Int) then FIFO_DEPTH else len)) []).spi.rxLen.toNat ≤ len := by
            rw [hwrx]
            simp
          obtain ⟨final, hrun, hf⟩ := runSession_completes len _ hinv hmeas
          exact ⟨final, hrun, hf⟩


/-- C5 witness: the drain part at a session with 40 receive bytes
remaining and 32 in flight, the fill part at a 2-byte transfer, and a
complete 40-byte session at source clock 20 MHz and target 1 MHz. -/
theorem claim_C5_witness :
    ((mchp_corespi_read_fifo ⟨none, some [], 0, 40, 32, 9, 1⟩ (List.replicate 32 7)).spi.rxLen ≤
        (40 : Int) ∧
      0 ≤ (mchp_corespi_read_fifo ⟨none, some [], 0, 40, 32, 9, 1⟩ (List.replicate 32 7)).spi.rxLen ∧
      (mchp_corespi_read_fifo ⟨none, some [], 0, 40, 32, 9, 1⟩ (List.replicate 32 7)).spi.txLen =
        (0 : Int) ∧
      (mchp_corespi_read_fifo ⟨none, some [], 0, 40, 32, 9, 1⟩ (List.replicate 32 7)).spi.pending =
        (32 : Int) - (mchp_corespi_read_fifo ⟨none, some [], 0, 40, 32, 9, 1⟩
          (List.replicate 32 7)).reads ∧
      0 ≤ (mchp_corespi_read_fifo ⟨none, some [], 0, 40, 32, 9, 1⟩ (List.replicate 32 7)).spi.pending) ∧
    ((mchp_corespi_write_fifo ⟨some [5, 6], none, 2, 2, 0, 9, 1⟩ ⟨0, 0, 0, 0⟩ []).spi.txLen ≤
        (2 : Int) ∧
      0 ≤ (mchp_corespi_write_fifo ⟨some [5, 6], none, 2, 2, 0, 9, 1⟩ ⟨0, 0, 0, 0⟩ []).spi.txLen ∧
      (mchp_corespi_write_fifo ⟨some [5, 6], none, 2, 2, 0, 9, 1⟩ ⟨0, 0, 0, 0⟩ []).spi.rxLen =
        (2 : Int) ∧
      (mchp_corespi_write_fifo ⟨some [5, 6], none, 2, 2, 0, 9, 1⟩ ⟨0, 0, 0, 0⟩ []).spi.pending =
        (0 : Int) + (mchp_corespi_write_fifo ⟨some [5, 6], none, 2, 2, 0, 9, 1⟩
          ⟨0, 0, 0, 0⟩ []).pushed.length) ∧
    ((mchp_corespi_transfer_one 20000000 1000000 40 none none ⟨none, none, 0, 0, 0, 0, 0⟩
        ⟨0, 0, 0, 0⟩ []).spi.pending =
      ((mchp_corespi_transfer_one 20000000 1000000 40 none none ⟨none, none, 0, 0, 0, 0, 0⟩
        ⟨0, 0, 0, 0⟩ []).pushed.length : Int) ∧
      ∃ final, runSession (40 + 1)
          ⟨(mchp_corespi_transfer_one 20000000 1000000 40 none none ⟨none, none, 0, 0, 0, 0, 0⟩
              ⟨0, 0, 0, 0⟩ []).spi,
            (mchp_corespi_transfer_one 20000000 1000000 40 none none ⟨none, none, 0, 0, 0, 0, 0⟩
              ⟨0, 0, 0, 0⟩ []).regs, [],
            (mchp_corespi_transfer_one 20000000 1000000 40 none none ⟨none, none, 0, 0, 0, 0, 0⟩
              ⟨0, 0, 0, 0⟩ []).txFifo⟩ = some final ∧
        final.spi.txLen = 0 ∧ final.spi.rxLen = 0 ∧ final.spi.pending = 0) :=
  ⟨claim_C5.1 ⟨none, some [], 0, 40, 32, 9, 1⟩ (List.replicate 32 7) (by decide) (by decide),
    claim_C5.2.1 ⟨some [5, 6], none, 2, 2, 0, 9, 1⟩ ⟨0, 0, 0, 0⟩ [] (by decide),
    claim_C5.2.2 20000000 1000000 40 none none ⟨none, none, 0, 0, 0, 0, 0⟩ ⟨0, 0, 0, 0⟩
      (by decide) (by decide)⟩

/-! ### Claim C6: the end-to-end 40-byte scenario -/

/-- C6, counterexample.  The engine does pick scheme A with divisor
d = 9 at source clock 20 MHz and target 1 MHz, but under the scheme-A
rate formula documented in the driver (and quoted by the spec),
`clk / (2 d + 1)`, that divisor yields 20000000 / 19 = 1052631 Hz, not
the claimed effective rate of 1000000 Hz. -/
theorem claim_C6_cex :
    mchp_corespi_calculate_clkgen 20000000 1000000 = some (1, 9) ∧
    specEffectiveRateA 20000000 9 = 1052631 ∧ (1052631 : Nat) ≠ 1000000 := by
  decide

/-- C6, amended.  `begin_transfer(target_hz = 1 MHz, length = 40,
tx = [0x01..0x28], rx_sink = buffer)` at source clock 20 MHz picks
scheme A with divisor d = 9 — the divisor computation guarantees
`clk ≤ 2·(d+1)·target`, here exactly `2·(9+1)·1000000 = 20000000`,
i.e. 1 MHz under the divide-by-`2(d+1)` law implied by the computation,
while the driver's documented formula `1/(2d+1)` would give
20000000/19 ≈ 1052631 Hz — pushes 32 bytes at `begin_transfer` and 8
more at the first interrupt, completes at the second interrupt, and the
receive buffer ends as [0x01..0x28]. -/
theorem claim_C6 :
    mchp_corespi_calculate_clkgen 20000000 1000000 = some (1, 9) ∧
    2 * (9 + 1) * 1000000 = 20000000 ∧
    (let xfer := mchp_corespi_transfer_one 20000000 1000000 40
        (some ((List.range 40).map (· + 1))) (some []) ⟨none, none, 0, 0, 0, 0, 0⟩
        ⟨0, 0, 0, 0⟩ []
    let step1 := normalStep ⟨xfer.spi, xfer.regs, [], xfer.txFifo⟩
    let step2 := normalStep ⟨step1.spi, step1.regs, step1.rxFifo, step1.txFifo⟩
    xfer.status = 1 ∧ xfer.spi.clkMode = 1 ∧ xfer.spi.clkGen = 9 ∧
    xfer.pushed.length = 32 ∧
    step1.finalise = false ∧ step1.txPushed.length = 8 ∧
    step2.finalise = true ∧ step2.txPushed = [] ∧
    step2.spi.rxBuf = some ((List.range 40).map (· + 1)) ∧
    step2.spi.rxLen = 0 ∧ step2.spi.txLen = 0 ∧ step2.spi.pending = 0 ∧
    runSession 2 ⟨xfer.spi, xfer.regs, [], xfer.txFifo⟩ =
      some ⟨step2.spi, step2.regs, step2.rxFifo, step2.txFifo⟩ ∧
    runSession 1 ⟨xfer.spi, xfer.regs, [], xfer.txFifo⟩ = none) := by
  decide

end CoreSpi
